import Mathlib

set_option maxRecDepth 8000

/-!
Shallow embedding of the spacetimedb-libs server core
(src/server/libs/stdb-common and src/server/libs/stdb-player).

Tables are modelled as lists of rows; the host-managed primary-key
accessors (find / update / try_insert_or_update) become explicit list
operations; the host random byte source becomes a function from draw
index to byte; Rust panics become an explicit diverging outcome.
-/

namespace StdbLibs

/-! ## Error taxonomy (stdb-common/src/error.rs) -/

/-- Mirrors the ServiceError enum of error.rs; each variant carries the
rendered message string. -/
inductive ServiceError where
  | BadRequest (msg : String)
  | Unauthorized (msg : String)
  | Forbidden (msg : String)
  | NotFound (msg : String)
  | Conflict (msg : String)
  | Validation (msg : String)
  | RateLimited (msg : String)
  | Internal (msg : String)
deriving DecidableEq, Repr

/-- Result of running a fallible operation; the diverge constructor
models a Rust panic (the unimplemented macro), which is not part of the
ServiceResult type in the source but is an effect of running the code. -/
inductive Outcome (α : Type) where
  | ok (a : α)
  | err (e : ServiceError)
  | diverge (msg : String)
deriving DecidableEq, Repr

/-- True exactly on the diverge (panic) constructor. -/
def Outcome.isDiverge : Outcome α → Bool
  | .diverge _ => true
  | _ => false

/-! ## Validation utilities (stdb-common/src/validate.rs)

The ValidationError display strings of validate.rs wrap the field name
in single quotes; the quote character is written \x27 below. -/

/-- ValidationError::required_field rendered through map_validation. -/
def required_field (name : String) : ServiceError :=
  .Validation ("Field \x27" ++ name ++ "\x27 is required")

/-- ValidationError::field_too_small rendered through map_validation. -/
def field_too_small (name : String) (min_length : Nat) : ServiceError :=
  .Validation ("Field \x27" ++ name ++ "\x27 must be at least " ++ toString min_length)

/-- ValidationError::field_too_large rendered through map_validation. -/
def field_too_large (name : String) (max_length : Nat) : ServiceError :=
  .Validation ("Field \x27" ++ name ++ "\x27 must be at most " ++ toString max_length)

/-- validate_str of validate.rs; value.len() in Rust is the UTF-8 byte
length, hence String.utf8ByteSize. -/
def validate_str (name value : String) (min_length max_length : Nat) : Outcome Unit :=
  let len := value.utf8ByteSize
  if min_length > 0 && value == "" then
    .err (required_field name)
  else if len < min_length then
    .err (field_too_small name min_length)
  else if len > max_length then
    .err (field_too_large name max_length)
  else
    .ok ()

/-- validate_uuid of validate.rs: the body is the unimplemented macro,
so every call panics with the message below and never returns. -/
def validate_uuid (_name _uuid : String) : Outcome Unit :=
  .diverge "not implemented: validate size, dashes, and if it\x27s not nil/max"

/-! ## Identifier allocator (stdb-common/src/uuid.rs) -/

/-- inner_new_uuid_v4: sixteen random bytes with the version nibble of
byte 6 forced to 4 and the variant bits of byte 8 forced to 10.
The rng argument gives the i-th byte produced by the byte source. -/
def inner_new_uuid_v4 (rng : Nat → Nat) : List Nat :=
  let r := fun i => rng i % 256
  [r 0, r 1, r 2, r 3, r 4, r 5,
   (r 6 &&& 0x0f) ||| 0x40,
   r 7,
   (r 8 &&& 0x3f) ||| 0x80,
   r 9, r 10, r 11, r 12, r 13, r 14, r 15]

/-- inner_new_uuid_v7: the u64 millisecond timestamp is shifted left by
16 bits (dropping its top 16 bits) and its big-endian bytes fill
positions 0..5; positions 6..15 are random; the version nibble of byte 6
is forced to 7 and the variant bits of byte 8 to 10. -/
def inner_new_uuid_v7 (timestamp_millis : Nat) (rng : Nat → Nat) : List Nat :=
  let t := timestamp_millis * 65536 % 2 ^ 64
  let b := fun i => t / 2 ^ (8 * (7 - i)) % 256
  let r := fun i => rng i % 256
  [b 0, b 1, b 2, b 3, b 4, b 5,
   (r 0 &&& 0x0f) ||| 0x70,
   r 1,
   (r 2 &&& 0x3f) ||| 0x80,
   r 3, r 4, r 5, r 6, r 7, r 8, r 9]

/-- Lower-case hex digit of a value below 16. -/
def hexDigit (n : Nat) : Char :=
  if n < 10 then Char.ofNat (48 + n) else Char.ofNat (87 + n)

/-- Fixed-width big-endian lower-case hex rendering, as produced by the
width-padded lower-hex format specifiers in uuid_to_string. -/
def hexPad (width n : Nat) : String :=
  String.mk ((List.range width).map (fun i => hexDigit (n / 16 ^ (width - 1 - i) % 16)))

/-- Big-endian value of a byte list. -/
def beBytes (bytes : List Nat) : Nat :=
  bytes.foldl (fun acc b => acc * 256 + b) 0

/-- uuid_to_string of uuid.rs: canonical 8-4-4-4-12 hyphenated
lower-case hex encoding of the 16 bytes. -/
def uuid_to_string (u : List Nat) : String :=
  hexPad 8 (beBytes (u.take 4)) ++ "-" ++
  hexPad 4 (beBytes ((u.drop 4).take 2)) ++ "-" ++
  hexPad 4 (beBytes ((u.drop 6).take 2)) ++ "-" ++
  hexPad 4 (beBytes ((u.drop 8).take 2)) ++ "-" ++
  hexPad 12 (beBytes (u.drop 10))

/-- Decode the top 48 bits of a 16-byte identifier as a big-endian
integer (the timestamp field of the ordered flavor). -/
def decodeTop48 (u : List Nat) : Nat :=
  beBytes (u.take 6)

/-- Regression fixture from the uuid.rs tests: the incrementing byte
source reproduces the exact canonical text of the v4 flavor. -/
theorem uuid_v4_fixture :
    uuid_to_string (inner_new_uuid_v4 (fun i => i)) = "00010203-0405-4607-8809-0a0b0c0d0e0f" := by
  decide

/-- Regression fixture from the uuid.rs tests for the v7 flavor. -/
theorem uuid_v7_fixture :
    uuid_to_string (inner_new_uuid_v7 1752115008844 (fun i => i)) =
      "0197f231-554c-7001-8203-040506070809" := by
  decide

/-- C7 counterexample: the claim demands that for every timestamp t the
top 48 bits of the ordered identifier decode back to t, but
inner_new_uuid_v7 shifts the 64-bit timestamp left by 16 bits and drops
its top 16 bits, so at t = 2 to the 48 (a valid u64 input) the decoded
value is 0, not t. -/
theorem claim7_counterexample :
    decodeTop48 (inner_new_uuid_v7 (2 ^ 48) (fun _ => 0)) = 0 ∧ (0:Nat) ≠ 2 ^ 48 := by
  constructor
  · decide
  · decide

/-- C7 (amended): for every byte source the random flavor has the high
nibble of byte 6 equal to 4 (0100) and the top two bits of byte 8 equal
to 2 (10); for every timestamp and byte source the ordered flavor has
the high nibble of byte 6 equal to 7 (0111) and the top two bits of
byte 8 equal to 2 (10), and decoding the top 48 bits as a big-endian
integer recovers the timestamp reduced modulo 2 to the 48 (hence the
timestamp itself exactly when it is below 2 to the 48). -/
theorem claim7_uuid_markers_and_timestamp (t : Nat) (rng rng2 : Nat → Nat) :
    (inner_new_uuid_v4 rng).getD 6 0 / 16 = 4 ∧
    (inner_new_uuid_v4 rng).getD 8 0 / 64 = 2 ∧
    (inner_new_uuid_v7 t rng2).getD 6 0 / 16 = 7 ∧
    (inner_new_uuid_v7 t rng2).getD 8 0 / 64 = 2 ∧
    decodeTop48 (inner_new_uuid_v7 t rng2) = t % 2 ^ 48 := by
  refine ⟨?_, ?_, ?_, ?_, ?_⟩
  · have h : ∀ b < 256, ((b &&& 15) ||| 64) / 16 = 4 := by decide
    simp only [inner_new_uuid_v4, List.getD, List.get?]
    exact h _ (Nat.mod_lt _ (by norm_num))
  · have h : ∀ b < 256, ((b &&& 63) ||| 128) / 64 = 2 := by decide
    simp only [inner_new_uuid_v4, List.getD, List.get?]
    exact h _ (Nat.mod_lt _ (by norm_num))
  · have h : ∀ b < 256, ((b &&& 15) ||| 112) / 16 = 7 := by decide
    simp only [inner_new_uuid_v7, List.getD, List.get?]
    exact h _ (Nat.mod_lt _ (by norm_num))
  · have h : ∀ b < 256, ((b &&& 63) ||| 128) / 64 = 2 := by decide
    simp only [inner_new_uuid_v7, List.getD, List.get?]
    exact h _ (Nat.mod_lt _ (by norm_num))
  · have hmod : t * 65536 % 2 ^ 64 = t % 2 ^ 48 * 65536 := by
      have h : (2:Nat) ^ 64 = 2 ^ 48 * 65536 := by norm_num
      rw [h, Nat.mul_mod_mul_right]
    have hs : t % 2 ^ 48 < 2 ^ 48 := Nat.mod_lt _ (by norm_num)
    simp only [decodeTop48, inner_new_uuid_v7, beBytes, List.take, List.foldl, hmod]
    generalize t % 2 ^ 48 = s at hs ⊢
    omega

/-- C10: validate_str fails with the RequiredField error when min is
positive and the value is empty, with TooSmall when the byte length is
below min (the empty case aside), with TooLarge when the byte length
exceeds max, and succeeds otherwise; in particular with bounds 8 and 64
it rejects lengths 7 and 65 and accepts lengths 8 and 64. -/
theorem claim10_validate_str (name value : String) (mn mx : Nat) :
    (mn > 0 ∧ value = "" → validate_str name value mn mx = .err (required_field name)) ∧
    (¬(mn > 0 ∧ value = "") → value.utf8ByteSize < mn →
      validate_str name value mn mx = .err (field_too_small name mn)) ∧
    (¬(mn > 0 ∧ value = "") → ¬(value.utf8ByteSize < mn) → value.utf8ByteSize > mx →
      validate_str name value mn mx = .err (field_too_large name mx)) ∧
    (¬(mn > 0 ∧ value = "") → ¬(value.utf8ByteSize < mn) → ¬(value.utf8ByteSize > mx) →
      validate_str name value mn mx = .ok ()) ∧
    (value.utf8ByteSize = 7 → validate_str name value 8 64 = .err (field_too_small name 8)) ∧
    (value.utf8ByteSize = 8 → validate_str name value 8 64 = .ok ()) ∧
    (value.utf8ByteSize = 64 → validate_str name value 8 64 = .ok ()) ∧
    (value.utf8ByteSize = 65 → validate_str name value 8 64 = .err (field_too_large name 64)) := by
  have hempty : (value == "") = true ↔ value = "" := beq_iff_eq
  have hsize : value = "" → value.utf8ByteSize = 0 := by
    intro h; subst h; rfl
  have hne : value.utf8ByteSize ≠ 0 → ¬(value == "") = true := by
    intro h hc; exact h (by rw [hempty.mp hc]; rfl)
  refine ⟨?_, ?_, ?_, ?_, ?_, ?_, ?_, ?_⟩
  · rintro ⟨h1, h2⟩
    simp only [validate_str]
    rw [if_pos]
    simp only [Bool.and_eq_true, decide_eq_true_eq, hempty]
    exact ⟨h1, h2⟩
  · intro h1 h2
    simp only [validate_str]
    rw [if_neg, if_pos h2]
    simp only [Bool.and_eq_true, decide_eq_true_eq, hempty]
    exact fun hc => h1 hc
  · intro h1 h2 h3
    simp only [validate_str]
    rw [if_neg, if_neg h2, if_pos h3]
    simp only [Bool.and_eq_true, decide_eq_true_eq, hempty]
    exact fun hc => h1 hc
  · intro h1 h2 h3
    simp only [validate_str]
    rw [if_neg, if_neg h2, if_neg h3]
    simp only [Bool.and_eq_true, decide_eq_true_eq, hempty]
    exact fun hc => h1 hc
  · intro h
    simp only [validate_str]
    rw [if_neg, if_pos (by omega)]
    simp only [Bool.and_eq_true, decide_eq_true_eq, hempty]
    rintro ⟨-, hv⟩
    exact absurd (hsize hv) (by omega)
  · intro h
    simp only [validate_str]
    rw [if_neg, if_neg (by omega), if_neg (by omega)]
    simp only [Bool.and_eq_true, decide_eq_true_eq, hempty]
    rintro ⟨-, hv⟩
    exact absurd (hsize hv) (by omega)
  · intro h
    simp only [validate_str]
    rw [if_neg, if_neg (by omega), if_neg (by omega)]
    simp only [Bool.and_eq_true, decide_eq_true_eq, hempty]
    rintro ⟨-, hv⟩
    exact absurd (hsize hv) (by omega)
  · intro h
    simp only [validate_str]
    rw [if_neg, if_neg (by omega), if_pos (by omega)]
    simp only [Bool.and_eq_true, decide_eq_true_eq, hempty]
    rintro ⟨-, hv⟩
    exact absurd (hsize hv) (by omega)

/-- C10 witness: the general statement instantiated at concrete inputs,
discharging the hypotheses of the empty-value branch. -/
theorem claim10_validate_str_witness :
    validate_str "display_name" "" 8 64 = .err (required_field "display_name") :=
  (claim10_validate_str "display_name" "" 8 64).1 ⟨by decide, rfl⟩

/-! ## Generic keyed table operations

The host database exposes, per table, a primary-key accessor with find,
update and try_insert_or_update. Tables are lists of rows; the key
function plays the role of the primary-key column. -/

section Table

variable {α : Type} {κ : Type} [DecidableEq κ]

/-- Point lookup on a key column. -/
def pkFind (key : α → κ) (l : List α) (k : κ) : Option α :=
  l.find? (fun w => decide (key w = k))

/-- In-place update of every row whose key equals k. -/
def pkUpdate (key : α → κ) (l : List α) (k : κ) (x : α) : List α :=
  l.map (fun w => if key w = k then x else w)

/-- Insert-or-update keyed on the key column of x. -/
def pkUpsert (key : α → κ) (l : List α) (x : α) : List α :=
  if l.any (fun w => decide (key w = key x)) then pkUpdate key l (key x) x else l ++ [x]

/-- All rows carry pairwise distinct keys (the primary-key invariant). -/
def pkUniq (key : α → κ) : List α → Bool
  | [] => true
  | x :: rest => rest.all (fun w => decide (key w ≠ key x)) && pkUniq key rest

theorem find?_append_some (p : α → Bool) {l1 : List α} (l2 : List α) {a : α}
    (h : l1.find? p = some a) : (l1 ++ l2).find? p = some a := by
  induction l1 with
  | nil => simp [List.find?] at h
  | cons v rest ih =>
      simp only [List.cons_append, List.find?] at h ⊢
      cases hv : p v with
      | true => simpa [hv] using h
      | false =>
          rw [hv] at h
          simpa [hv] using ih h

theorem find?_append_none (p : α → Bool) {l1 : List α} (l2 : List α)
    (h : l1.find? p = none) : (l1 ++ l2).find? p = l2.find? p := by
  induction l1 with
  | nil => simp
  | cons v rest ih =>
      simp only [List.cons_append, List.find?] at h ⊢
      cases hv : p v with
      | true => rw [hv] at h; simp at h
      | false =>
          rw [hv] at h
          simpa [hv] using ih h

theorem find?_pkUpdate_hit (key : α → κ) (p : α → Bool) {l : List α} {a : α} (x : α)
    (hfind : l.find? p = some a) (hpx : p x = true) :
    (pkUpdate key l (key a) x).find? p = some x := by
  induction l with
  | nil => simp [List.find?] at hfind
  | cons v rest ih =>
      simp only [pkUpdate, List.map] at ih ⊢
      by_cases hk : key v = key a
      · rw [if_pos hk]
        exact List.find?_cons_of_pos _ hpx
      · rw [if_neg hk]
        cases hv : p v with
        | true =>
            rw [List.find?_cons_of_pos _ hv] at hfind
            simp only [Option.some.injEq] at hfind
            exact absurd (congrArg key hfind) hk
        | false =>
            rw [List.find?_cons_of_neg _ (by simp [hv])] at hfind
            rw [List.find?_cons_of_neg _ (by simp [hv])]
            exact ih hfind

theorem find?_pkUpdate_miss (key : α → κ) (p : α → Bool) {l : List α} (k : κ) (x : α)
    (hl : ∀ w ∈ l, key w = k → p w = false) (hx : p x = false) :
    (pkUpdate key l k x).find? p = l.find? p := by
  induction l with
  | nil => rfl
  | cons v rest ih =>
      have hrest : ∀ w ∈ rest, key w = k → p w = false := fun w hw => hl w (by simp [hw])
      simp only [pkUpdate, List.map, List.find?] at ih ⊢
      by_cases hk : key v = k
      · have hv : p v = false := hl v (by simp) hk
        rw [if_pos hk, hx, hv]
        exact ih hrest
      · rw [if_neg hk]
        cases hv : p v with
        | true => rfl
        | false => exact ih hrest

theorem pkUpdate_eq_self (key : α → κ) {l : List α} (k : κ) (x : α)
    (h : ∀ w ∈ l, key w ≠ k) : pkUpdate key l k x = l := by
  induction l with
  | nil => rfl
  | cons v rest ih =>
      simp only [pkUpdate, List.map] at ih ⊢
      rw [if_neg (h v (by simp)), ih (fun w hw => h w (by simp [hw]))]

theorem pkUpdate_append (key : α → κ) (l1 l2 : List α) (k : κ) (x : α) :
    pkUpdate key (l1 ++ l2) k x = pkUpdate key l1 k x ++ pkUpdate key l2 k x := by
  simp [pkUpdate]

theorem pkUpdate_length (key : α → κ) (l : List α) (k : κ) (x : α) :
    (pkUpdate key l k x).length = l.length := by
  simp [pkUpdate]

theorem mem_pkUpdate_cases (key : α → κ) {l : List α} {k : κ} {x w : α}
    (hw : w ∈ pkUpdate key l k x) : w = x ∨ (w ∈ l ∧ key w ≠ k) := by
  obtain ⟨w0, hw0, hweq⟩ := List.mem_map.mp hw
  by_cases hk : key w0 = k
  · rw [if_pos hk] at hweq
    exact Or.inl hweq.symm
  · rw [if_neg hk] at hweq
    subst hweq
    exact Or.inr ⟨hw0, hk⟩

theorem pkUpdate_key_surj (key : α → κ) {l : List α} {k : κ} {x : α} (hkx : key x = k)
    {w : α} (hw : w ∈ l) : ∃ w2 ∈ pkUpdate key l k x, key w2 = key w := by
  by_cases hk : key w = k
  · refine ⟨x, ?_, by rw [hkx, hk]⟩
    exact List.mem_map.mpr ⟨w, hw, by rw [if_pos hk]⟩
  · exact ⟨w, List.mem_map.mpr ⟨w, hw, by rw [if_neg hk]⟩, rfl⟩

theorem pkUniq_eq_of_mem (key : α → κ) {l : List α} (hu : pkUniq key l = true)
    {a w : α} (ha : a ∈ l) (hw : w ∈ l) (hk : key w = key a) : w = a := by
  induction l with
  | nil => simp at ha
  | cons v rest ih =>
      simp only [pkUniq, Bool.and_eq_true, List.all_eq_true, decide_eq_true_eq] at hu
      rcases List.mem_cons.mp ha with rfl | ha2
      · rcases List.mem_cons.mp hw with rfl | hw2
        · rfl
        · exact absurd hk (hu.1 w hw2)
      · rcases List.mem_cons.mp hw with rfl | hw2
        · exact absurd hk.symm (hu.1 a ha2)
        · exact ih hu.2 ha2 hw2

theorem pkUpdate_eq_self_of_mem (key : α → κ) {l : List α} (hu : pkUniq key l = true)
    {a : α} (ha : a ∈ l) : pkUpdate key l (key a) a = l := by
  have h : ∀ w ∈ l, (fun w => if key w = key a then a else w) w = id w := by
    intro w hw
    by_cases hk : key w = key a
    · simp only [if_pos hk, id]
      exact (pkUniq_eq_of_mem key hu ha hw hk).symm
    · simp only [if_neg hk, id]
  simpa [pkUpdate] using (List.map_congr_left h).trans (List.map_id l)

theorem pkFind_pkUpsert (key : α → κ) (l : List α) (x : α) :
    pkFind key (pkUpsert key l x) (key x) = some x := by
  by_cases hc : l.any (fun w => decide (key w = key x)) = true
  · rcases hb : l.find? (fun w => decide (key w = key x)) with _ | b
    · exfalso
      obtain ⟨a, ha, hka⟩ : ∃ a ∈ l, key a = key x := by simpa using hc
      rw [List.find?_eq_none] at hb
      have h := hb a ha
      simp only [decide_eq_true_eq] at h
      exact h hka
    · have hkb : key b = key x := by simpa using List.find?_some hb
      simp only [pkUpsert, if_pos hc, pkFind]
      have h2 := find?_pkUpdate_hit key (fun w => decide (key w = key x)) x hb (by simp)
      rw [hkb] at h2
      exact h2
  · simp only [pkUpsert, if_neg hc, pkFind]
    rw [find?_append_none]
    · simp [List.find?]
    · rw [List.find?_eq_none]
      intro w hw
      simp only [List.any_eq_true, decide_eq_true_eq, not_exists, not_and] at hc
      simpa using hc w hw

theorem mem_pkUpsert_self (key : α → κ) (l : List α) (x : α) : x ∈ pkUpsert key l x := by
  by_cases hc : l.any (fun w => decide (key w = key x)) = true
  · obtain ⟨a, ha, hka⟩ : ∃ a ∈ l, key a = key x := by simpa using hc
    simp only [pkUpsert, if_pos hc, pkUpdate]
    exact List.mem_map.mpr ⟨a, ha, by simp [hka]⟩
  · simp only [pkUpsert, if_neg hc]
    simp

theorem all_keys_pkUpdate (key : α → κ) {l : List α} {c : κ} (k : κ) {x : α}
    (hl : ∀ w ∈ l, key w ≠ c) (hx : key x ≠ c) :
    ∀ w ∈ pkUpdate key l k x, key w ≠ c := by
  intro w hw
  obtain ⟨w0, hw0, hweq⟩ := List.mem_map.mp hw
  by_cases hk : key w0 = k
  · rw [if_pos hk] at hweq
    exact hweq ▸ hx
  · rw [if_neg hk] at hweq
    exact hweq ▸ hl w0 hw0

theorem pkUpdate_cons (key : α → κ) (v : α) (rest : List α) (k : κ) (x : α) :
    pkUpdate key (v :: rest) k x =
      (if key v = k then x else v) :: pkUpdate key rest k x := by
  simp [pkUpdate]

theorem pkUniq_pkUpdate (key : α → κ) {l : List α} (hu : pkUniq key l = true) {k : κ} {x : α}
    (hkx : key x = k) : pkUniq key (pkUpdate key l k x) = true := by
  induction l with
  | nil => rfl
  | cons v rest ih =>
      simp only [pkUniq, Bool.and_eq_true, List.all_eq_true, decide_eq_true_eq] at hu
      rw [pkUpdate_cons]
      by_cases hk : key v = k
      · rw [if_pos hk, pkUpdate_eq_self key k x (fun w hw => hk ▸ hu.1 w hw)]
        simp only [pkUniq, Bool.and_eq_true, List.all_eq_true, decide_eq_true_eq]
        exact ⟨fun w hw => by rw [hkx, ← hk]; exact hu.1 w hw, hu.2⟩
      · rw [if_neg hk]
        simp only [pkUniq, Bool.and_eq_true, List.all_eq_true, decide_eq_true_eq]
        refine ⟨?_, ih hu.2⟩
        intro w hw
        refine all_keys_pkUpdate key k hu.1 ?_ w hw
        intro hc
        rw [hc] at hkx
        exact hk hkx

theorem pkUniq_append_one (key : α → κ) {l : List α} (hu : pkUniq key l = true) {x : α}
    (hx : ∀ w ∈ l, key w ≠ key x) : pkUniq key (l ++ [x]) = true := by
  induction l with
  | nil => simp [pkUniq]
  | cons v rest ih =>
      simp only [pkUniq, Bool.and_eq_true, List.all_eq_true, decide_eq_true_eq] at hu
      simp only [List.cons_append, pkUniq, Bool.and_eq_true, List.all_eq_true,
        decide_eq_true_eq]
      refine ⟨?_, ih hu.2 (fun w hw => hx w (by simp [hw]))⟩
      intro w hw
      rcases List.mem_append.mp hw with hw1 | hw2
      · exact hu.1 w hw1
      · have : w = x := by simpa using hw2
        subst this
        exact fun hc => hx v (by simp) hc.symm

theorem pkUniq_pkUpsert (key : α → κ) {l : List α} (hu : pkUniq key l = true) (x : α) :
    pkUniq key (pkUpsert key l x) = true := by
  by_cases hc : l.any (fun w => decide (key w = key x)) = true
  · simp only [pkUpsert, if_pos hc]
    exact pkUniq_pkUpdate key hu rfl
  · simp only [pkUpsert, if_neg hc]
    simp only [List.any_eq_true, decide_eq_true_eq, not_exists, not_and] at hc
    exact pkUniq_append_one key hu (fun w hw => hc w hw)

theorem countP_eq_one_of_uniq_mem (key : α → κ) {l : List α} (hu : pkUniq key l = true)
    {a : α} (ha : a ∈ l) :
    l.countP (fun w => decide (key w = key a)) = 1 := by
  induction l with
  | nil => simp at ha
  | cons v rest ih =>
      simp only [pkUniq, Bool.and_eq_true, List.all_eq_true, decide_eq_true_eq] at hu
      rcases List.mem_cons.mp ha with rfl | ha2
      · rw [List.countP_cons]
        have h0 : rest.countP (fun w => decide (key w = key a)) = 0 := by
          rw [List.countP_eq_zero]
          intro w hw
          simpa using hu.1 w hw
        rw [h0]
        simp
      · rw [List.countP_cons]
        have hne : ¬(key v = key a) := fun hc => (hu.1 a ha2) hc.symm
        simp only [decide_eq_true_eq, if_neg hne, Nat.add_zero]
        exact ih hu.2 ha2

end Table

/-! ## VIP relationship engine (stdb-player/src/vip) -/

/-- VipStatusV1 of vip/mod.rs. -/
inductive VipStatusV1 where
  | InviteSent
  | InviteReceived
  | Friends
deriving DecidableEq, Repr

/-- StdbOwnVipV1 row of vip/mod.rs; vip_id is the auto-incremented
primary key, identifiers are the canonical Uuid strings, created_at is
the timestamp in microseconds. -/
structure StdbOwnVipV1 where
  vip_id : Nat
  sender_id : String
  receiver_id : String
  tag : String
  status : VipStatusV1
  created_at : Int
deriving DecidableEq, Repr

/-- The stdb_own_vip_v1 table: its rows plus the auto-increment counter
that supplies the next vip_id. -/
structure VipDb where
  rows : List StdbOwnVipV1
  next_vip_id : Nat
deriving DecidableEq, Repr

/-- Membership test of the player_ids_index btree filter. -/
def vipPair (sender_id receiver_id : String) (v : StdbOwnVipV1) : Bool :=
  v.sender_id == sender_id && v.receiver_id == receiver_id

/-- find_vip of vip/repository.rs: first row of the composite-index
filter over the ordered pair. -/
def find_vip (db : VipDb) (sender_id receiver_id : String) : Option StdbOwnVipV1 :=
  db.rows.find? (vipPair sender_id receiver_id)

/-- try_insert_or_update on the vip_id primary key: a zero vip_id is
replaced by the next auto-increment value and the row is inserted; a
known vip_id updates the row in place. The vip table has no further
unique columns, so the model store never reports a conflict here. -/
def vip_try_insert_or_update (db : VipDb) (row : StdbOwnVipV1) : StdbOwnVipV1 × VipDb :=
  if row.vip_id == 0 then
    let assigned := { row with vip_id := db.next_vip_id }
    (assigned, ⟨db.rows ++ [assigned], db.next_vip_id + 1⟩)
  else if db.rows.any (fun w => w.vip_id == row.vip_id) then
    (row, ⟨pkUpdate StdbOwnVipV1.vip_id db.rows row.vip_id row, db.next_vip_id⟩)
  else
    (row, ⟨db.rows ++ [row], db.next_vip_id⟩)

/-- upsert_vip of vip/repository.rs: update the previously looked-up row
in place (fresh tag and status) or build a fresh row with vip_id 0 and
the current timestamp, then write it through the primary-key upsert. -/
def upsert_vip (ts : Int) (sender : Option StdbOwnVipV1) (sender_id receiver_id tag : String)
    (status : VipStatusV1) (db : VipDb) : StdbOwnVipV1 × VipDb :=
  let new_row :=
    match sender with
    | some s => { s with tag := tag, status := status }
    | none =>
        { vip_id := 0, sender_id := sender_id, receiver_id := receiver_id,
          tag := tag, status := status, created_at := ts }
  vip_try_insert_or_update db new_row

/-- The body of insert_vip after its three validation calls
(vip/repository.rs lines 25 to 47): look up both directed rows, then
either plant the invite pair or promote both rows to Friends. -/
def insert_vip_validated (ts : Int) (sender_id receiver_id tag : String) (db : VipDb) :
    StdbOwnVipV1 × VipDb :=
  let sender := find_vip db sender_id receiver_id
  let receiver := find_vip db receiver_id sender_id
  match receiver with
  | none =>
      let step := upsert_vip ts receiver receiver_id sender_id "" .InviteReceived db
      upsert_vip ts sender sender_id receiver_id tag .InviteSent step.2
  | some r =>
      let step := upsert_vip ts receiver receiver_id sender_id r.tag .Friends db
      upsert_vip ts sender sender_id receiver_id tag .Friends step.2

/-- insert_vip of vip/repository.rs: validate sender_id, receiver_id and
tag, then run the decision table. The first validation call diverges
(validate_uuid is the unimplemented macro), so the later steps are dead
code reproduced here for fidelity. -/
def insert_vip (ts : Int) (sender_id receiver_id tag : String) (db : VipDb) :
    Outcome StdbOwnVipV1 × VipDb :=
  match validate_uuid "sender_id" sender_id with
  | .diverge m => (.diverge m, db)
  | .err e => (.err e, db)
  | .ok _ =>
    match validate_uuid "receiver_id" receiver_id with
    | .diverge m => (.diverge m, db)
    | .err e => (.err e, db)
    | .ok _ =>
      match validate_str "tag" tag 0 32 with
      | .diverge m => (.diverge m, db)
      | .err e => (.err e, db)
      | .ok _ =>
          let res := insert_vip_validated ts sender_id receiver_id tag db
          (.ok res.1, res.2)

/-- Well-formedness of the vip table as maintained by the host store:
primary keys are pairwise distinct, and every assigned vip_id is
positive and below the auto-increment counter. -/
def VipDb.wf (db : VipDb) : Bool :=
  pkUniq StdbOwnVipV1.vip_id db.rows &&
  db.rows.all (fun w => decide (0 < w.vip_id) && decide (w.vip_id < db.next_vip_id)) &&
  decide (0 < db.next_vip_id)

theorem VipDb.wf_ids {db : VipDb} (h : db.wf = true) :
    pkUniq StdbOwnVipV1.vip_id db.rows = true := by
  simp only [VipDb.wf, Bool.and_eq_true] at h
  exact h.1.1

theorem VipDb.wf_bounds {db : VipDb} (h : db.wf = true) :
    ∀ w ∈ db.rows, 0 < w.vip_id ∧ w.vip_id < db.next_vip_id := by
  simp only [VipDb.wf, Bool.and_eq_true, List.all_eq_true, decide_eq_true_eq] at h
  exact h.1.2

theorem VipDb.wf_next {db : VipDb} (h : db.wf = true) : 0 < db.next_vip_id := by
  simp only [VipDb.wf, Bool.and_eq_true, decide_eq_true_eq] at h
  exact h.2

theorem find_vip_fields {db : VipDb} {a b : String} {v : StdbOwnVipV1}
    (h : find_vip db a b = some v) :
    v.sender_id = a ∧ v.receiver_id = b ∧ v ∈ db.rows := by
  have hp := List.find?_some h
  simp only [vipPair, Bool.and_eq_true, beq_iff_eq] at hp
  exact ⟨hp.1, hp.2, List.mem_of_find?_eq_some h⟩

theorem find_vip_none {db : VipDb} {a b : String}
    (h : find_vip db a b = none) : ∀ w ∈ db.rows, vipPair a b w = false := by
  intro w hw
  have := List.find?_eq_none.mp h w hw
  simpa using this

/-- Record eta fact used for the no-op receiver write of the promotion
branch: overwriting a row with its own tag and its current status is the
identity. -/
theorem vip_row_eta (v : StdbOwnVipV1) (st : VipStatusV1) (h : v.status = st) :
    ({ v with tag := v.tag, status := st }) = v := by
  cases v
  simp_all

theorem upsert_vip_fresh (ts : Int) (a b tag : String) (st : VipStatusV1) (db : VipDb) :
    upsert_vip ts none a b tag st db =
      ({ vip_id := db.next_vip_id, sender_id := a, receiver_id := b,
         tag := tag, status := st, created_at := ts },
       ⟨db.rows ++ [{ vip_id := db.next_vip_id, sender_id := a, receiver_id := b,
                      tag := tag, status := st, created_at := ts }],
        db.next_vip_id + 1⟩) := rfl

theorem upsert_vip_update (ts : Int) {s : StdbOwnVipV1} (a b tag : String) (st : VipStatusV1)
    (db : VipDb) (h0 : s.vip_id ≠ 0) (hmem : ∃ w ∈ db.rows, w.vip_id = s.vip_id) :
    upsert_vip ts (some s) a b tag st db =
      ({ s with tag := tag, status := st },
       ⟨pkUpdate StdbOwnVipV1.vip_id db.rows s.vip_id { s with tag := tag, status := st },
        db.next_vip_id⟩) := by
  simp only [upsert_vip, vip_try_insert_or_update]
  rw [if_neg (by simpa using h0), if_pos]
  obtain ⟨w, hw, hk⟩ := hmem
  exact List.any_eq_true.mpr ⟨w, hw, by simpa using hk⟩

/-- Decision-table branch: neither directed row exists, so the call
plants the inbound placeholder and the outbound invite as fresh rows. -/
theorem insert_vip_validated_bothNone (ts : Int) {s r : String} (tag : String) {db : VipDb}
    (hs : find_vip db s r = none) (hr : find_vip db r s = none) :
    insert_vip_validated ts s r tag db =
      ({ vip_id := db.next_vip_id + 1, sender_id := s, receiver_id := r,
         tag := tag, status := .InviteSent, created_at := ts },
       ⟨db.rows ++ [{ vip_id := db.next_vip_id, sender_id := r, receiver_id := s,
                      tag := "", status := .InviteReceived, created_at := ts },
                    { vip_id := db.next_vip_id + 1, sender_id := s, receiver_id := r,
                      tag := tag, status := .InviteSent, created_at := ts }],
        db.next_vip_id + 2⟩) := by
  simp only [insert_vip_validated, hs, hr, upsert_vip_fresh]
  simp [List.append_assoc]

/-- Decision-table branch: the sender row exists but the receiver row
does not, so the inbound placeholder is planted fresh and the sender row
is refreshed in place to InviteSent with the caller tag. -/
theorem insert_vip_validated_senderOnly (ts : Int) {s r : String} (tag : String) {db : VipDb}
    {ss : StdbOwnVipV1} (hwf : db.wf = true)
    (hs : find_vip db s r = some ss) (hr : find_vip db r s = none) :
    insert_vip_validated ts s r tag db =
      ({ ss with tag := tag, status := .InviteSent },
       ⟨pkUpdate StdbOwnVipV1.vip_id db.rows ss.vip_id
           { ss with tag := tag, status := .InviteSent }
          ++ [{ vip_id := db.next_vip_id, sender_id := r, receiver_id := s,
                tag := "", status := .InviteReceived, created_at := ts }],
        db.next_vip_id + 1⟩) := by
  obtain ⟨hss, hsr, hmem⟩ := find_vip_fields hs
  have hbound := VipDb.wf_bounds hwf ss hmem
  have hrec : ∀ w ∈ db.rows, w.vip_id ≠ db.next_vip_id := by
    intro w hw
    have := VipDb.wf_bounds hwf w hw
    omega
  simp only [insert_vip_validated, hs, hr, upsert_vip_fresh]
  rw [upsert_vip_update ts s r tag .InviteSent _ (by omega)
      ⟨ss, by simp [hmem], rfl⟩]
  rw [pkUpdate_append, pkUpdate_cons,
    if_neg (show ¬(db.next_vip_id = ss.vip_id) by omega)]
  rfl

/-- Decision-table branch: the receiver row exists but the sender row
does not, so the receiver row is promoted to Friends keeping its own
tag and the sender row is created fresh with status Friends. -/
theorem insert_vip_validated_receiverOnly (ts : Int) {s r : String} (tag : String) {db : VipDb}
    {rr : StdbOwnVipV1} (hwf : db.wf = true)
    (hs : find_vip db s r = none) (hr : find_vip db r s = some rr) :
    insert_vip_validated ts s r tag db =
      ({ vip_id := db.next_vip_id, sender_id := s, receiver_id := r,
         tag := tag, status := .Friends, created_at := ts },
       ⟨pkUpdate StdbOwnVipV1.vip_id db.rows rr.vip_id
           { rr with tag := rr.tag, status := .Friends }
          ++ [{ vip_id := db.next_vip_id, sender_id := s, receiver_id := r,
                tag := tag, status := .Friends, created_at := ts }],
        db.next_vip_id + 1⟩) := by
  obtain ⟨hrs, hrr, hmem⟩ := find_vip_fields hr
  have hbound := VipDb.wf_bounds hwf rr hmem
  simp only [insert_vip_validated, hs, hr]
  rw [upsert_vip_update ts r s rr.tag .Friends _ (by omega) ⟨rr, hmem, rfl⟩]
  rw [upsert_vip_fresh]

/-- Decision-table branch: both directed rows exist, so both are
promoted to Friends in place, the receiver row keeping its own tag and
the sender row taking the caller tag. -/
theorem insert_vip_validated_bothSome (ts : Int) {s r : String} (tag : String) {db : VipDb}
    {ss rr : StdbOwnVipV1} (hwf : db.wf = true)
    (hs : find_vip db s r = some ss) (hr : find_vip db r s = some rr) :
    insert_vip_validated ts s r tag db =
      ({ ss with tag := tag, status := .Friends },
       ⟨pkUpdate StdbOwnVipV1.vip_id
           (pkUpdate StdbOwnVipV1.vip_id db.rows rr.vip_id
             { rr with tag := rr.tag, status := .Friends })
           ss.vip_id { ss with tag := tag, status := .Friends },
        db.next_vip_id⟩) := by
  obtain ⟨hss, hsr, hsmem⟩ := find_vip_fields hs
  obtain ⟨hrs, hrr, hrmem⟩ := find_vip_fields hr
  have hsb := VipDb.wf_bounds hwf ss hsmem
  have hrb := VipDb.wf_bounds hwf rr hrmem
  simp only [insert_vip_validated, hs, hr]
  rw [upsert_vip_update ts r s rr.tag .Friends _ (by omega) ⟨rr, hrmem, rfl⟩]
  rw [upsert_vip_update ts s r tag .Friends _ (by omega)]
  obtain ⟨w2, hw2, hk2⟩ :=
    pkUpdate_key_surj StdbOwnVipV1.vip_id (x := { rr with tag := rr.tag, status := .Friends })
      rfl hsmem
  exact ⟨w2, hw2, hk2⟩

/-- C1: after validation, insert_vip branches on whether the receiver
row exists: if it does not, the call writes the receiver row with status
InviteReceived and empty tag and the sender row with status InviteSent
and the caller tag; if it does, both rows are written with status
Friends, the receiver row keeping its own tag and the sender row taking
the caller tag. -/
theorem claim1_decision_table (ts : Int) (s r tag : String) (db : VipDb)
    (hwf : db.wf = true) (hne : s ≠ r) :
    (find_vip db r s = none →
      ((find_vip (insert_vip_validated ts s r tag db).2 r s).map (fun v => (v.status, v.tag)) =
          some (.InviteReceived, "") ∧
       (find_vip (insert_vip_validated ts s r tag db).2 s r).map (fun v => (v.status, v.tag)) =
          some (.InviteSent, tag))) ∧
    (∀ rr, find_vip db r s = some rr →
      ((find_vip (insert_vip_validated ts s r tag db).2 r s).map (fun v => (v.status, v.tag)) =
          some (.Friends, rr.tag) ∧
       (find_vip (insert_vip_validated ts s r tag db).2 s r).map (fun v => (v.status, v.tag)) =
          some (.Friends, tag))) := by
  have hu := VipDb.wf_ids hwf
  have hner : r ≠ s := fun h => hne h.symm
  constructor
  · intro hr
    have hr2 : db.rows.find? (vipPair r s) = none := hr
    rcases hsend : find_vip db s r with _ | ss
    · have hs2 : db.rows.find? (vipPair s r) = none := hsend
      rw [insert_vip_validated_bothNone ts tag hsend hr]
      constructor
      · show ((db.rows ++ _).find? (vipPair r s)).map _ = _
        rw [find?_append_none _ _ hr2, List.find?_cons_of_pos _ (by simp [vipPair])]
        simp
      · show ((db.rows ++ _).find? (vipPair s r)).map _ = _
        rw [find?_append_none _ _ hs2,
          List.find?_cons_of_neg _ (by simp [vipPair, hner]),
          List.find?_cons_of_pos _ (by simp [vipPair])]
        simp
    · obtain ⟨hss1, hss2, hssmem⟩ := find_vip_fields hsend
      have hs2 : db.rows.find? (vipPair s r) = some ss := hsend
      rw [insert_vip_validated_senderOnly ts tag hwf hsend hr]
      constructor
      · show ((pkUpdate _ _ _ _ ++ _).find? (vipPair r s)).map _ = _
        have part1 : (pkUpdate StdbOwnVipV1.vip_id db.rows ss.vip_id
            { ss with tag := tag, status := .InviteSent }).find? (vipPair r s) = none := by
          rw [find?_pkUpdate_miss _ _ _ _ (fun w hw _ => find_vip_none hr w hw)
            (by simp [vipPair, hss1, hne])]
          exact hr2
        rw [find?_append_none _ _ part1, List.find?_cons_of_pos _ (by simp [vipPair])]
        simp
      · show ((pkUpdate _ _ _ _ ++ _).find? (vipPair s r)).map _ = _
        have part1 : (pkUpdate StdbOwnVipV1.vip_id db.rows ss.vip_id
            { ss with tag := tag, status := .InviteSent }).find? (vipPair s r) =
            some { ss with tag := tag, status := .InviteSent } :=
          find?_pkUpdate_hit _ _ _ hs2 (by simp [vipPair, hss1, hss2])
        rw [find?_append_some _ _ part1]
        simp
  · intro rr hr
    obtain ⟨hrs1, hrs2, hrmem⟩ := find_vip_fields hr
    have hr2 : db.rows.find? (vipPair r s) = some rr := hr
    rcases hsend : find_vip db s r with _ | ss
    · have hs2 : db.rows.find? (vipPair s r) = none := hsend
      rw [insert_vip_validated_receiverOnly ts tag hwf hsend hr]
      constructor
      · show ((pkUpdate _ _ _ _ ++ _).find? (vipPair r s)).map _ = _
        have part1 : (pkUpdate StdbOwnVipV1.vip_id db.rows rr.vip_id
            { rr with tag := rr.tag, status := .Friends }).find? (vipPair r s) =
            some { rr with tag := rr.tag, status := .Friends } :=
          find?_pkUpdate_hit _ _ _ hr2 (by simp [vipPair, hrs1, hrs2])
        rw [find?_append_some _ _ part1]
        simp
      · show ((pkUpdate _ _ _ _ ++ _).find? (vipPair s r)).map _ = _
        have part1 : (pkUpdate StdbOwnVipV1.vip_id db.rows rr.vip_id
            { rr with tag := rr.tag, status := .Friends }).find? (vipPair s r) = none := by
          rw [find?_pkUpdate_miss _ _ _ _ ?hl (by simp [vipPair, hrs1, hner])]
          · exact hs2
          case hl =>
            intro w hw hk
            rw [pkUniq_eq_of_mem _ hu hrmem hw hk]
            simp [vipPair, hrs1, hner]
        rw [find?_append_none _ _ part1, List.find?_cons_of_pos _ (by simp [vipPair])]
        simp
    · obtain ⟨hss1, hss2, hssmem⟩ := find_vip_fields hsend
      have hs2 : db.rows.find? (vipPair s r) = some ss := hsend
      have hssrr : ss.vip_id = rr.vip_id → False := by
        intro hk
        have heq := pkUniq_eq_of_mem _ hu hrmem hssmem hk
        rw [heq] at hss1
        exact hne (hss1 ▸ hrs1 ▸ rfl)
      rw [insert_vip_validated_bothSome ts tag hwf hsend hr]
      constructor
      · show ((pkUpdate _ (pkUpdate _ _ _ _) _ _).find? (vipPair r s)).map _ = _
        have inner : (pkUpdate StdbOwnVipV1.vip_id db.rows rr.vip_id
            { rr with tag := rr.tag, status := .Friends }).find? (vipPair r s) =
            some { rr with tag := rr.tag, status := .Friends } :=
          find?_pkUpdate_hit _ _ _ hr2 (by simp [vipPair, hrs1, hrs2])
        have outer : (pkUpdate StdbOwnVipV1.vip_id
            (pkUpdate StdbOwnVipV1.vip_id db.rows rr.vip_id
              { rr with tag := rr.tag, status := .Friends })
            ss.vip_id { ss with tag := tag, status := .Friends }).find? (vipPair r s) =
            some { rr with tag := rr.tag, status := .Friends } := by
          rw [find?_pkUpdate_miss _ _ _ _ ?hl (by simp [vipPair, hss1, hne])]
          · exact inner
          case hl =>
            intro w hw hk
            rcases mem_pkUpdate_cases _ hw with rfl | ⟨hwmem, hwk⟩
            · exact (hssrr hk.symm).elim
            · rw [pkUniq_eq_of_mem _ hu hssmem hwmem hk]
              simp [vipPair, hss1, hne]
        rw [outer]
        simp
      · show ((pkUpdate _ (pkUpdate _ _ _ _) _ _).find? (vipPair s r)).map _ = _
        have inner : (pkUpdate StdbOwnVipV1.vip_id db.rows rr.vip_id
            { rr with tag := rr.tag, status := .Friends }).find? (vipPair s r) = some ss := by
          rw [find?_pkUpdate_miss _ _ _ _ ?hl (by simp [vipPair, hrs1, hner])]
          · exact hs2
          case hl =>
            intro w hw hk
            rw [pkUniq_eq_of_mem _ hu hrmem hw hk]
            simp [vipPair, hrs1, hner]
        have outer : (pkUpdate StdbOwnVipV1.vip_id
            (pkUpdate StdbOwnVipV1.vip_id db.rows rr.vip_id
              { rr with tag := rr.tag, status := .Friends })
            ss.vip_id { ss with tag := tag, status := .Friends }).find? (vipPair s r) =
            some { ss with tag := tag, status := .Friends } :=
          find?_pkUpdate_hit _ _ _ inner (by simp [vipPair, hss1, hss2])
        rw [outer]
        simp


/-- Two-call handshake: from a state with neither directed row, a first
call s to r with tag x followed by a second call r to s with tag y ends
with exactly the two Friends rows appended, the first call having
created both rows (ids n and n+1) and the second call having promoted
them in place. -/
theorem vip_handshake (ts1 ts2 : Int) (s r x y : String) (db : VipDb)
    (hwf : db.wf = true) (hne : s ≠ r)
    (hsr : find_vip db s r = none) (hrs : find_vip db r s = none) :
    (insert_vip_validated ts2 r s y (insert_vip_validated ts1 s r x db).2).2 =
      ⟨db.rows ++ [{ vip_id := db.next_vip_id, sender_id := r, receiver_id := s,
                     tag := y, status := .Friends, created_at := ts1 },
                   { vip_id := db.next_vip_id + 1, sender_id := s, receiver_id := r,
                     tag := x, status := .Friends, created_at := ts1 }],
       db.next_vip_id + 2⟩ := by
  have hner : r ≠ s := fun h => hne h.symm
  have hbnd := VipDb.wf_bounds hwf
  have hpos := VipDb.wf_next hwf
  set n := db.next_vip_id with hn
  set recv : StdbOwnVipV1 :=
    { vip_id := n, sender_id := r, receiver_id := s,
      tag := "", status := .InviteReceived, created_at := ts1 } with hrecv
  set send : StdbOwnVipV1 :=
    { vip_id := n + 1, sender_id := s, receiver_id := r,
      tag := x, status := .InviteSent, created_at := ts1 } with hsend
  have hcall1 : (insert_vip_validated ts1 s r x db).2 = ⟨db.rows ++ [recv, send], n + 2⟩ := by
    rw [insert_vip_validated_bothNone ts1 x hsr hrs]
  rw [hcall1]
  have hfind_rs : find_vip ⟨db.rows ++ [recv, send], n + 2⟩ r s = some recv := by
    show (db.rows ++ [recv, send]).find? (vipPair r s) = some recv
    rw [find?_append_none _ _ hrs, List.find?_cons_of_pos _ (by simp [vipPair, hrecv])]
  have hfind_sr : find_vip ⟨db.rows ++ [recv, send], n + 2⟩ s r = some send := by
    show (db.rows ++ [recv, send]).find? (vipPair s r) = some send
    rw [find?_append_none _ _ hsr,
      List.find?_cons_of_neg _ (by simp [vipPair, hrecv, hner]),
      List.find?_cons_of_pos _ (by simp [vipPair, hsend])]
  simp only [insert_vip_validated, hfind_rs, hfind_sr]
  rw [upsert_vip_update ts2 s r send.tag .Friends _ (by simp [hsend])
      ⟨send, by simp, rfl⟩]
  rw [upsert_vip_update ts2 r s y .Friends _ (by simp [hrecv]; omega)
      ?memrecv]
  case memrecv =>
    refine ⟨recv, ?_, rfl⟩
    show recv ∈ pkUpdate StdbOwnVipV1.vip_id (db.rows ++ [recv, send]) send.vip_id _
    rw [pkUpdate_append, pkUpdate_cons, pkUpdate_cons,
      if_neg (show ¬(recv.vip_id = send.vip_id) by simp [hrecv, hsend])]
    simp
  have step1 : pkUpdate StdbOwnVipV1.vip_id (db.rows ++ [recv, send]) send.vip_id
      { send with tag := send.tag, status := .Friends } =
      db.rows ++ [recv, { send with tag := send.tag, status := .Friends }] := by
    rw [pkUpdate_append, pkUpdate_cons, pkUpdate_cons,
      if_neg (show ¬(recv.vip_id = send.vip_id) by simp [hrecv, hsend]),
      if_pos (show send.vip_id = send.vip_id from rfl),
      pkUpdate_eq_self _ _ _ (fun w hw => by have := hbnd w hw; simp [hsend]; omega)]
    rfl
  rw [step1]
  have step2 : pkUpdate StdbOwnVipV1.vip_id
      (db.rows ++ [recv, { send with tag := send.tag, status := .Friends }]) recv.vip_id
      { recv with tag := y, status := .Friends } =
      db.rows ++ [{ recv with tag := y, status := .Friends },
                  { send with tag := send.tag, status := .Friends }] := by
    rw [pkUpdate_append, pkUpdate_cons, pkUpdate_cons,
      if_pos (show recv.vip_id = recv.vip_id from rfl),
      if_neg (show ¬(StdbOwnVipV1.vip_id { send with tag := send.tag, status := .Friends } =
        recv.vip_id) by simp [hrecv, hsend]),
      pkUpdate_eq_self _ _ _ (fun w hw => by have := hbnd w hw; simp [hrecv]; omega)]
    rfl
  rw [step2]


/-- C1 witness: the decision table applied from the empty table at
concrete players, discharging the well-formedness, distinctness and
receiver-row-absent hypotheses. -/
theorem claim1_witness :
    ((find_vip (insert_vip_validated 0 "a" "b" "hi" ⟨[], 1⟩).2 "b" "a").map
        (fun v => (v.status, v.tag)) = some (.InviteReceived, "")) ∧
    ((find_vip (insert_vip_validated 0 "a" "b" "hi" ⟨[], 1⟩).2 "a" "b").map
        (fun v => (v.status, v.tag)) = some (.InviteSent, "hi")) :=
  (claim1_decision_table 0 "a" "b" "hi" ⟨[], 1⟩ (by decide) (by decide)).1 rfl

/-- C3 counterexample: the two call orders do not produce identical
final states, because the surrogate vip_id keys (and hence the stored
rows) are assigned in opposite positions: after a then b the row b to a
holds vip_id 1, after b then a it holds vip_id 2. -/
theorem claim3_counterexample :
    (insert_vip_validated 1 "b" "a" "y" (insert_vip_validated 0 "a" "b" "x" ⟨[], 1⟩).2).2 ≠
      (insert_vip_validated 1 "a" "b" "x" (insert_vip_validated 0 "b" "a" "y" ⟨[], 1⟩).2).2 := by
  decide

/-- C3 (amended): from a state with no rows between A and B, the call
A to B with tag x followed by B to A with tag y leaves exactly two rows
between them, both Friends, A to B tagged x and B to A tagged y, and the
opposite order yields the same two rows up to the assignment of the two
surrogate vip_id keys (which the two orders hand out in swapped
positions); in both orders the table grows by exactly two rows. -/
theorem claim3_symmetry (ts1 ts2 : Int) (A B x y : String) (db : VipDb)
    (hwf : db.wf = true) (hne : A ≠ B)
    (hAB : find_vip db A B = none) (hBA : find_vip db B A = none) :
    (insert_vip_validated ts2 B A y (insert_vip_validated ts1 A B x db).2).2 =
      ⟨db.rows ++ [{ vip_id := db.next_vip_id, sender_id := B, receiver_id := A,
                     tag := y, status := .Friends, created_at := ts1 },
                   { vip_id := db.next_vip_id + 1, sender_id := A, receiver_id := B,
                     tag := x, status := .Friends, created_at := ts1 }],
       db.next_vip_id + 2⟩ ∧
    (insert_vip_validated ts2 A B x (insert_vip_validated ts1 B A y db).2).2 =
      ⟨db.rows ++ [{ vip_id := db.next_vip_id, sender_id := A, receiver_id := B,
                     tag := x, status := .Friends, created_at := ts1 },
                   { vip_id := db.next_vip_id + 1, sender_id := B, receiver_id := A,
                     tag := y, status := .Friends, created_at := ts1 }],
       db.next_vip_id + 2⟩ ∧
    (insert_vip_validated ts2 B A y (insert_vip_validated ts1 A B x db).2).2.rows.length =
      db.rows.length + 2 :=
  ⟨vip_handshake ts1 ts2 A B x y db hwf hne hAB hBA,
   vip_handshake ts1 ts2 B A y x db hwf (fun h => hne h.symm) hBA hAB,
   by rw [vip_handshake ts1 ts2 A B x y db hwf hne hAB hBA]; simp⟩

/-- C3 witness: the handshake from the empty table at concrete players
and tags, discharging every hypothesis. -/
theorem claim3_witness :
    ((insert_vip_validated 1 "b" "a" "y" (insert_vip_validated 0 "a" "b" "x" ⟨[], 1⟩).2).2 =
      ⟨[{ vip_id := 1, sender_id := "b", receiver_id := "a",
          tag := "y", status := .Friends, created_at := 0 },
        { vip_id := 2, sender_id := "a", receiver_id := "b",
          tag := "x", status := .Friends, created_at := 0 }], 3⟩) ∧
    ((insert_vip_validated 1 "a" "b" "x" (insert_vip_validated 0 "b" "a" "y" ⟨[], 1⟩).2).2 =
      ⟨[{ vip_id := 1, sender_id := "a", receiver_id := "b",
          tag := "x", status := .Friends, created_at := 0 },
        { vip_id := 2, sender_id := "b", receiver_id := "a",
          tag := "y", status := .Friends, created_at := 0 }], 3⟩) ∧
    ((insert_vip_validated 1 "b" "a" "y" (insert_vip_validated 0 "a" "b" "x" ⟨[], 1⟩).2).2.rows.length = 2) :=
  claim3_symmetry 0 1 "a" "b" "x" "y" ⟨[], 1⟩ (by decide) (by decide) rfl rfl

/-- C4: repeating the call A to B with tag x when both rows are already
Friends rewrites only the sender row (its tag becomes x, status stays
Friends), leaves the receiver row B to A untouched with its own tag, and
creates no third row (the row count is unchanged). -/
theorem claim4_idempotent (ts : Int) (A B x : String) (db : VipDb)
    (sAB sBA : StdbOwnVipV1) (hwf : db.wf = true) (hne : A ≠ B)
    (hAB : find_vip db A B = some sAB) (hBA : find_vip db B A = some sBA)
    (hfAB : sAB.status = .Friends) (hfBA : sBA.status = .Friends) :
    (insert_vip_validated ts A B x db).2.rows =
      pkUpdate StdbOwnVipV1.vip_id db.rows sAB.vip_id
        { sAB with tag := x, status := .Friends } ∧
    find_vip (insert_vip_validated ts A B x db).2 A B =
      some { sAB with tag := x, status := .Friends } ∧
    find_vip (insert_vip_validated ts A B x db).2 B A = some sBA ∧
    (insert_vip_validated ts A B x db).2.rows.length = db.rows.length := by
  have hu := VipDb.wf_ids hwf
  have hner : B ≠ A := fun h => hne h.symm
  obtain ⟨hs1, hs2, hsmem⟩ := find_vip_fields hAB
  obtain ⟨hr1, hr2, hrmem⟩ := find_vip_fields hBA
  have hAB2 : db.rows.find? (vipPair A B) = some sAB := hAB
  have hBA2 : db.rows.find? (vipPair B A) = some sBA := hBA
  have heta : ({ sBA with tag := sBA.tag, status := VipStatusV1.Friends }) = sBA :=
    vip_row_eta sBA .Friends hfBA
  rw [insert_vip_validated_bothSome ts x hwf hAB hBA, heta,
    pkUpdate_eq_self_of_mem StdbOwnVipV1.vip_id hu hrmem]
  refine ⟨rfl, ?_, ?_, ?_⟩
  · show (pkUpdate StdbOwnVipV1.vip_id db.rows sAB.vip_id _).find? (vipPair A B) = _
    exact find?_pkUpdate_hit _ _ _ hAB2 (by simp [vipPair, hs1, hs2])
  · show (pkUpdate StdbOwnVipV1.vip_id db.rows sAB.vip_id _).find? (vipPair B A) = _
    rw [find?_pkUpdate_miss _ _ _ _ ?hl (by simp [vipPair, hs1, hne, hner])]
    · exact hBA2
    case hl =>
      intro w hw hk
      rw [pkUniq_eq_of_mem _ hu hsmem hw hk]
      simp [vipPair, hs1, hne, hner]
  · show (pkUpdate StdbOwnVipV1.vip_id db.rows sAB.vip_id _).length = _
    exact pkUpdate_length _ _ _ _

/-- C4 witness: the idempotent re-send applied to a concrete two-row
Friends state, discharging every hypothesis. -/
theorem claim4_witness :
    (insert_vip_validated 5 "a" "b" "x"
        ⟨[{ vip_id := 1, sender_id := "a", receiver_id := "b",
            tag := "old", status := .Friends, created_at := 0 },
          { vip_id := 2, sender_id := "b", receiver_id := "a",
            tag := "keep", status := .Friends, created_at := 0 }], 3⟩).2.rows =
      pkUpdate StdbOwnVipV1.vip_id
        [{ vip_id := 1, sender_id := "a", receiver_id := "b",
           tag := "old", status := .Friends, created_at := 0 },
         { vip_id := 2, sender_id := "b", receiver_id := "a",
           tag := "keep", status := .Friends, created_at := 0 }] 1
        { vip_id := 1, sender_id := "a", receiver_id := "b",
          tag := "x", status := .Friends, created_at := 0 } ∧
    find_vip (insert_vip_validated 5 "a" "b" "x"
        ⟨[{ vip_id := 1, sender_id := "a", receiver_id := "b",
            tag := "old", status := .Friends, created_at := 0 },
          { vip_id := 2, sender_id := "b", receiver_id := "a",
            tag := "keep", status := .Friends, created_at := 0 }], 3⟩).2 "a" "b" =
      some { vip_id := 1, sender_id := "a", receiver_id := "b",
             tag := "x", status := .Friends, created_at := 0 } ∧
    find_vip (insert_vip_validated 5 "a" "b" "x"
        ⟨[{ vip_id := 1, sender_id := "a", receiver_id := "b",
            tag := "old", status := .Friends, created_at := 0 },
          { vip_id := 2, sender_id := "b", receiver_id := "a",
            tag := "keep", status := .Friends, created_at := 0 }], 3⟩).2 "b" "a" =
      some { vip_id := 2, sender_id := "b", receiver_id := "a",
             tag := "keep", status := .Friends, created_at := 0 } ∧
    (insert_vip_validated 5 "a" "b" "x"
        ⟨[{ vip_id := 1, sender_id := "a", receiver_id := "b",
            tag := "old", status := .Friends, created_at := 0 },
          { vip_id := 2, sender_id := "b", receiver_id := "a",
            tag := "keep", status := .Friends, created_at := 0 }], 3⟩).2.rows.length = 2 :=
  claim4_idempotent 5 "a" "b" "x"
    ⟨[{ vip_id := 1, sender_id := "a", receiver_id := "b",
        tag := "old", status := .Friends, created_at := 0 },
      { vip_id := 2, sender_id := "b", receiver_id := "a",
        tag := "keep", status := .Friends, created_at := 0 }], 3⟩
    { vip_id := 1, sender_id := "a", receiver_id := "b",
      tag := "old", status := .Friends, created_at := 0 }
    { vip_id := 2, sender_id := "b", receiver_id := "a",
      tag := "keep", status := .Friends, created_at := 0 }
    (by decide) (by decide) rfl rfl rfl rfl



/-! ## Player and session tables (stdb-player/src/player/mod.rs) -/

/-- StdbOwnPlayerSessionV1 row: the connection Identity (modelled as an
opaque number) is the primary key. -/
structure StdbOwnPlayerSessionV1 where
  session_id : Nat
  player_id : String
  is_online : Bool
deriving DecidableEq, Repr

/-- StdbOwnPlayerV1 row: private player record; player_id is the
primary key and display_name carries a unique index. Timestamps are
microseconds since the epoch. -/
structure StdbOwnPlayerV1 where
  player_id : String
  display_name : String
  avatar : String
  created_at : Int
  signed_in_at : Int
  last_signed_out_at : Int
deriving DecidableEq, Repr

/-- StdbPubPlayerCardV1 row: public projection keyed by player_id. -/
structure StdbPubPlayerCardV1 where
  player_id : String
  display_name : String
  avatar : String
deriving DecidableEq, Repr

/-- From StdbOwnPlayerV1 for StdbPubPlayerCardV1. -/
def playerCard (p : StdbOwnPlayerV1) : StdbPubPlayerCardV1 :=
  { player_id := p.player_id, display_name := p.display_name, avatar := p.avatar }

/-- The three player-side tables. -/
structure PlayerDb where
  sessions : List StdbOwnPlayerSessionV1
  players : List StdbOwnPlayerV1
  cards : List StdbPubPlayerCardV1
deriving DecidableEq, Repr

/-- Reducer context: transaction timestamp (microseconds), caller
identity, and the host random byte source indexed by draw position. -/
structure Ctx where
  timestamp : Int
  sender : Nat
  randomBytes : Nat → Nat

/-- find_session of player/repository.rs. -/
def find_session (db : PlayerDb) (session_id : Nat) : Option StdbOwnPlayerSessionV1 :=
  pkFind StdbOwnPlayerSessionV1.session_id db.sessions session_id

/-- find_player of player/repository.rs. -/
def find_player (db : PlayerDb) (player_id : String) : Option StdbOwnPlayerV1 :=
  pkFind StdbOwnPlayerV1.player_id db.players player_id

/-- find_player_by_display_name of player/repository.rs (unique index). -/
def find_player_by_display_name (db : PlayerDb) (display_name : String) :
    Option StdbOwnPlayerV1 :=
  pkFind StdbOwnPlayerV1.display_name db.players display_name

/-- find_player_card of player/repository.rs. -/
def find_player_card (db : PlayerDb) (player_id : String) : Option StdbPubPlayerCardV1 :=
  pkFind StdbPubPlayerCardV1.player_id db.cards player_id

/-- new_uuid_v4 of uuid.rs as seen from the context: consumes 16 bytes
of the source starting at the given position. -/
def new_uuid_v4 (c : Ctx) (pos : Nat) : String × Nat :=
  (uuid_to_string (inner_new_uuid_v4 (fun i => c.randomBytes (pos + i))), pos + 16)

/-- new_uuid_v7 of uuid.rs as seen from the context: millisecond
timestamp from the context clock (i64 division toward zero, cast to u64)
plus 10 random bytes. -/
def new_uuid_v7 (c : Ctx) (pos : Nat) : String × Nat :=
  let millis := ((c.timestamp.tdiv 1000) % (2 ^ 64 : Int)).toNat
  (uuid_to_string (inner_new_uuid_v7 millis (fun i => c.randomBytes (pos + i))), pos + 10)

/-- COLORS of player/repository.rs (48 entries). -/
def COLORS : List String :=
  ["Red", "Blue", "Green", "Yellow", "Orange", "Purple", "Pink", "Brown", "Black", "White",
   "Gray", "Teal", "Cyan", "Magenta", "Maroon", "Navy", "Olive", "Lime", "Coral", "Turquoise",
   "Gold", "Silver", "Bronze", "Ivory", "Beige", "Lavender", "Mint", "Peach", "Amber",
   "Crimson", "Azure", "Emerald", "Violet", "Indigo", "Ruby", "Sapphire", "Onyx", "Pearl",
   "Jade", "Topaz", "Garnet", "Obsidian", "Copper", "Steel", "Platinum", "Charcoal", "Sand",
   "Rose"]

/-- ADJECTIVES of player/repository.rs (38 entries). -/
def ADJECTIVES : List String :=
  ["Swift", "Brave", "Mighty", "Silent", "Golden", "Ancient", "Fierce", "Noble", "Mystic",
   "Crystal", "Shadow", "Bright", "Wild", "Gentle", "Storm", "Fire", "Frost", "Thunder",
   "Lightning", "Celestial", "Radiant", "Crimson", "Azure", "Emerald", "Silver", "Cosmic",
   "Eternal", "Primal", "Savage", "Serene", "Blazing", "Frozen", "Winged", "Iron", "Steel",
   "Diamond", "Ruby", "Sapphire"]

/-- CREATURES of player/repository.rs (50 entries). -/
def CREATURES : List String :=
  ["Wolf", "Eagle", "Tiger", "Dragon", "Phoenix", "Bear", "Hawk", "Lion", "Panther", "Falcon",
   "Raven", "Stag", "Fox", "Lynx", "Owl", "Shark", "Viper", "Cobra", "Stallion", "Leopard",
   "Jaguar", "Condor", "Bison", "Rhino", "Elk", "Moose", "Badger", "Wolverine", "Cougar",
   "Cheetah", "Orca", "Dolphin", "Whale", "Kraken", "Turtle", "Tortoise", "Gecko", "Iguana",
   "Salamander", "Newt", "Toad", "Frog", "Heron", "Crane", "Pelican", "Albatross", "Petrel",
   "Penguin", "Seal", "Walrus"]

/-- PLANTS of player/repository.rs (37 entries). -/
def PLANTS : List String :=
  ["Oak", "Pine", "Redwood", "Cedar", "Birch", "Maple", "Willow", "Ash", "Elder", "Yew",
   "Cypress", "Sequoia", "Magnolia", "Cherry", "Bamboo", "Lotus", "Rose", "Orchid", "Lily",
   "Iris", "Tulip", "Sunflower", "Lavender", "Jasmine", "Sage", "Thyme", "Basil", "Mint",
   "Rosemary", "Fern", "Moss", "Ivy", "Vine", "Heather", "Thistle", "Clover", "Daisy"]

/-- build_random_display_name of player/repository.rs: one random byte
picks the color, one the adjective, one random bool picks the creature
or plant family, one more byte picks the noun; the three words are
joined by single spaces. Four bytes of the source are consumed either
way. -/
def build_random_display_name (c : Ctx) (pos : Nat) : String × Nat :=
  let color := COLORS.getD (c.randomBytes pos % 256 % COLORS.length) ""
  let adjective := ADJECTIVES.getD (c.randomBytes (pos + 1) % 256 % ADJECTIVES.length) ""
  let use_creature := c.randomBytes (pos + 2) % 2 == 1
  let noun :=
    if use_creature then
      CREATURES.getD (c.randomBytes (pos + 3) % 256 % CREATURES.length) ""
    else
      PLANTS.getD (c.randomBytes (pos + 3) % 256 % PLANTS.length) ""
  (color ++ " " ++ adjective ++ " " ++ noun, pos + 4)

/-- The bounded retry loop of build_unique_display_name, indexed by the
remaining attempts: draw a candidate, accept it when no player already
holds it, otherwise retry; when the attempts are exhausted, fall back to
the canonical text of a fresh v4 identifier. -/
def build_unique_display_name_loop (c : Ctx) (players : List StdbOwnPlayerV1) :
    Nat → Nat → String × Nat
  | 0, pos => new_uuid_v4 c pos
  | fuel + 1, pos =>
      let d := build_random_display_name c pos
      if (pkFind StdbOwnPlayerV1.display_name players d.1).isNone then d
      else build_unique_display_name_loop c players fuel d.2

/-- build_unique_display_name of player/repository.rs: 12 attempts. -/
def build_unique_display_name (c : Ctx) (players : List StdbOwnPlayerV1) (pos : Nat) :
    String × Nat :=
  build_unique_display_name_loop c players 12 pos

/-- upsert_player_card of player/repository.rs: validate both fields,
overwrite the existing player or build a fresh one, write it through the
player primary-key upsert (the unique display_name index can reject the
write with a Conflict), then write the projected card through the card
primary-key upsert (no further unique column, so the model store cannot
reject it). -/
def upsert_player_card (c : Ctx) (player_id display_name avatar : String) (db : PlayerDb) :
    Outcome StdbOwnPlayerV1 × PlayerDb :=
  match validate_str "display_name" display_name 8 64 with
  | .err e => (.err e, db)
  | .diverge m => (.diverge m, db)
  | .ok _ =>
    match validate_str "avatar" avatar 8 64 with
    | .err e => (.err e, db)
    | .diverge m => (.diverge m, db)
    | .ok _ =>
      let player :=
        match find_player db player_id with
        | some p => { p with display_name := display_name, avatar := avatar }
        | none =>
            { player_id := player_id, display_name := display_name, avatar := avatar,
              created_at := c.timestamp, signed_in_at := c.timestamp,
              last_signed_out_at := 0 }
      if db.players.any (fun w =>
          decide (w.player_id ≠ player.player_id) && w.display_name == player.display_name) then
        (.err (.Conflict "failed to insert or update player: unique constraint violation"), db)
      else
        let db1 := { db with players := pkUpsert StdbOwnPlayerV1.player_id db.players player }
        (.ok player,
         { db1 with cards :=
            pkUpsert StdbPubPlayerCardV1.player_id db1.cards (playerCard player) })

/-- insert_player of player/repository.rs: idempotent provisioning;
an existing player is returned unchanged, otherwise a unique display
name is generated and the player and card are written together. -/
def insert_player (c : Ctx) (player_id : String) (db : PlayerDb) (pos : Nat) :
    Outcome StdbOwnPlayerV1 × PlayerDb × Nat :=
  match find_player db player_id with
  | some player => (.ok player, db, pos)
  | none =>
      let d := build_unique_display_name c db.players pos
      let res := upsert_player_card c player_id d.1 "default_avatar" db
      (res.1, res.2, d.2)

/-- sign_in_session of player/repository.rs: reuse or create the
session, force it online, write it through the session primary-key
upsert, then stamp signed_in_at on the existing player or provision a
new one. -/
def sign_in_session (c : Ctx) (session_id : Nat) (db : PlayerDb) (pos : Nat) :
    Outcome StdbOwnPlayerSessionV1 × PlayerDb × Nat :=
  let init :=
    match find_session db session_id with
    | some s => (s, pos)
    | none =>
        let u := new_uuid_v7 c pos
        ({ session_id := session_id, player_id := u.1, is_online := true }, u.2)
  let session := { init.1 with is_online := true }
  let db1 :=
    { db with sessions := pkUpsert StdbOwnPlayerSessionV1.session_id db.sessions session }
  match find_player db1 session.player_id with
  | some p =>
      let players2 := pkUpdate StdbOwnPlayerV1.player_id db1.players p.player_id
        { p with signed_in_at := c.timestamp }
      (.ok session, { db1 with players := players2 }, init.2)
  | none =>
      let res := insert_player c session.player_id db1 init.2
      match res.1 with
      | .ok _ => (.ok session, res.2.1, res.2.2)
      | .err e => (.err e, res.2.1, res.2.2)
      | .diverge m => (.diverge m, res.2.1, res.2.2)

/-- sign_out_session of player/repository.rs: no-op when the session is
unknown; otherwise force the session offline and stamp
last_signed_out_at on the player when it exists. -/
def sign_out_session (c : Ctx) (session_id : Nat) (db : PlayerDb) :
    Outcome Unit × PlayerDb :=
  match find_session db session_id with
  | none => (.ok (), db)
  | some s =>
      let session := { s with is_online := false }
      let db1 :=
        { db with sessions := pkUpsert StdbOwnPlayerSessionV1.session_id db.sessions session }
      match find_player db1 session.player_id with
      | some p =>
          let players2 := pkUpdate StdbOwnPlayerV1.player_id db1.players p.player_id
            { p with last_signed_out_at := c.timestamp }
          (.ok (), { db1 with players := players2 })
      | none => (.ok (), db1)

/-- stdb_identity_connected of player/mod.rs: sign in the caller. -/
def stdb_identity_connected (c : Ctx) (db : PlayerDb) (pos : Nat) :
    Outcome Unit × PlayerDb × Nat :=
  let res := sign_in_session c c.sender db pos
  match res.1 with
  | .ok _ => (.ok (), res.2)
  | .err e => (.err e, res.2)
  | .diverge m => (.diverge m, res.2)

/-- stdb_identity_disconnected of player/mod.rs: sign out the caller and
discard the result, so the hook has no failure channel at all. -/
def stdb_identity_disconnected (c : Ctx) (db : PlayerDb) : PlayerDb :=
  (sign_out_session c c.sender db).2

/-- require_session of validate.rs (stdb-player): the caller must own a
session, otherwise Unauthorized. -/
def require_session (c : Ctx) (db : PlayerDb) : Outcome StdbOwnPlayerSessionV1 :=
  match find_session db c.sender with
  | some s => .ok s
  | none => .err (ServiceError.Unauthorized "Unauthorized")

/-- update_player_card_v1 reducer of player/mod.rs. -/
def update_player_card_v1 (c : Ctx) (display_name avatar : String) (db : PlayerDb) :
    Outcome Unit × PlayerDb :=
  match require_session c db with
  | .err e => (.err e, db)
  | .diverge m => (.diverge m, db)
  | .ok session =>
      let res := upsert_player_card c session.player_id display_name avatar db
      match res.1 with
      | .ok _ => (.ok (), res.2)
      | .err e => (.err e, res.2)
      | .diverge m => (.diverge m, res.2)

/-- insert_vip_v1 reducer of vip/mod.rs: authorize the caller session,
then run insert_vip with the session player as sender. Only the vip
table can be written by this reducer. -/
def insert_vip_v1 (c : Ctx) (receiver_id tag : String) (db : PlayerDb) (vdb : VipDb) :
    Outcome Unit × VipDb :=
  match require_session c db with
  | .err e => (.err e, vdb)
  | .diverge m => (.diverge m, vdb)
  | .ok session =>
      let res := insert_vip c.timestamp session.player_id receiver_id tag vdb
      match res.1 with
      | .ok _ => (.ok (), res.2)
      | .err e => (.err e, res.2)
      | .diverge m => (.diverge m, res.2)

/-- Primary-key well-formedness of the player-side tables. -/
def PlayerDb.wf (db : PlayerDb) : Bool :=
  pkUniq StdbOwnPlayerSessionV1.session_id db.sessions &&
  pkUniq StdbOwnPlayerV1.player_id db.players

/-- A private player row is covered when some public card row carries
the same player_id, display_name and avatar. -/
def cardCovered (cards : List StdbPubPlayerCardV1) (p : StdbOwnPlayerV1) : Bool :=
  cards.any (fun cd =>
    cd.player_id == p.player_id && cd.display_name == p.display_name && cd.avatar == p.avatar)

/-- The write-through projection invariant over explicit table lists. -/
def cardInvLists (players : List StdbOwnPlayerV1) (cards : List StdbPubPlayerCardV1) : Bool :=
  players.all (cardCovered cards)

/-- The write-through projection invariant: every private player row has
a public card row with the same player_id, display_name and avatar. -/
def cardInv (db : PlayerDb) : Bool :=
  cardInvLists db.players db.cards


theorem pkFind_mem {α κ : Type} [DecidableEq κ] (key : α → κ) {l : List α} {k : κ} {a : α}
    (h : pkFind key l k = some a) : a ∈ l ∧ key a = k :=
  ⟨List.mem_of_find?_eq_some h, by simpa using List.find?_some h⟩

theorem pkUpsert_eq_self_of_mem {α κ : Type} [DecidableEq κ] (key : α → κ) {l : List α}
    (hu : pkUniq key l = true) {a : α} (ha : a ∈ l) : pkUpsert key l a = l := by
  simp only [pkUpsert]
  rw [if_pos (List.any_eq_true.mpr ⟨a, ha, by simp⟩), pkUpdate_eq_self_of_mem key hu ha]

theorem mem_pkUpsert_cases {α κ : Type} [DecidableEq κ] (key : α → κ) {l : List α} {x w : α}
    (hw : w ∈ pkUpsert key l x) : w = x ∨ (w ∈ l ∧ key w ≠ key x) := by
  by_cases hc : l.any (fun v => decide (key v = key x)) = true
  · rw [pkUpsert, if_pos hc] at hw
    exact mem_pkUpdate_cases key hw
  · rw [pkUpsert, if_neg hc] at hw
    simp only [List.any_eq_true, decide_eq_true_eq, not_exists, not_and] at hc
    rcases List.mem_append.mp hw with hw1 | hw2
    · exact Or.inr ⟨hw1, hc w hw1⟩
    · exact Or.inl (by simpa using hw2)

theorem mem_pkUpsert_of_ne {α κ : Type} [DecidableEq κ] (key : α → κ) {l : List α} {x w : α}
    (hw : w ∈ l) (hne : key w ≠ key x) : w ∈ pkUpsert key l x := by
  by_cases hc : l.any (fun v => decide (key v = key x)) = true
  · rw [pkUpsert, if_pos hc]
    exact List.mem_map.mpr ⟨w, hw, by rw [if_neg hne]⟩
  · rw [pkUpsert, if_neg hc]
    exact List.mem_append.mpr (Or.inl hw)

/-- Eta fact for sessions: forcing online a session that is already
online is the identity. -/
theorem session_eta (s : StdbOwnPlayerSessionV1) (h : s.is_online = true) :
    ({ s with is_online := true }) = s := by
  cases s
  simp_all

/-- Primary-key facts of PlayerDb.wf. -/
theorem PlayerDb.wf_sessions {db : PlayerDb} (h : db.wf = true) :
    pkUniq StdbOwnPlayerSessionV1.session_id db.sessions = true := by
  simp only [PlayerDb.wf, Bool.and_eq_true] at h
  exact h.1

theorem PlayerDb.wf_players {db : PlayerDb} (h : db.wf = true) :
    pkUniq StdbOwnPlayerV1.player_id db.players = true := by
  simp only [PlayerDb.wf, Bool.and_eq_true] at h
  exact h.2

/-- C2 counterexample: the claim says every input to the public reducer
insert_vip_v1 panics, but a caller without a session is rejected with
Unauthorized by require_session before insert_vip (and its diverging
validate_uuid call) ever runs, so that input returns an error rather
than panicking. -/
theorem claim2_counterexample :
    (insert_vip_v1 ⟨0, 7, fun _ => 0⟩ "b" "t" ⟨[], [], []⟩ ⟨[], 1⟩).1 =
      .err (ServiceError.Unauthorized "Unauthorized") ∧
    (insert_vip_v1 ⟨0, 7, fun _ => 0⟩ "b" "t" ⟨[], [], []⟩ ⟨[], 1⟩).1.isDiverge = false := by
  exact ⟨rfl, rfl⟩

/-- C2 (amended): insert_vip itself panics in validate_uuid on every
input, before any read or write of the vip table, leaving the table
unchanged; through the public reducer insert_vip_v1, a caller without a
session is rejected Unauthorized before insert_vip runs and a caller
with a session reaches the panic — in every case the vip table is
unchanged and the decision-table logic is unreachable. -/
theorem claim2_validation_diverges (ts : Int) (sid rid tag : String) (vdb : VipDb)
    (c : Ctx) (db : PlayerDb) (rid2 tag2 : String) :
    insert_vip ts sid rid tag vdb =
      (.diverge "not implemented: validate size, dashes, and if it\x27s not nil/max", vdb) ∧
    (insert_vip_v1 c rid2 tag2 db vdb).2 = vdb ∧
    (find_session db c.sender = none →
      (insert_vip_v1 c rid2 tag2 db vdb).1 = .err (ServiceError.Unauthorized "Unauthorized")) ∧
    (∀ s, find_session db c.sender = some s →
      (insert_vip_v1 c rid2 tag2 db vdb).1 =
        .diverge "not implemented: validate size, dashes, and if it\x27s not nil/max") := by
  refine ⟨rfl, ?_, ?_, ?_⟩
  · rcases h : find_session db c.sender with _ | s <;>
      simp [insert_vip_v1, require_session, h, insert_vip, validate_uuid]
  · intro h
    simp [insert_vip_v1, require_session, h]
  · intro s h
    simp [insert_vip_v1, require_session, h, insert_vip, validate_uuid]

/-- C2 witness: a caller owning a session reaches the diverging
validate_uuid call. -/
theorem claim2_witness :
    (insert_vip_v1 ⟨0, 7, fun _ => 0⟩ "b" "t"
        ⟨[{ session_id := 7, player_id := "p", is_online := true }], [], []⟩ ⟨[], 1⟩).1 =
      .diverge "not implemented: validate size, dashes, and if it\x27s not nil/max" :=
  (claim2_validation_diverges 0 "s" "r" "t" ⟨[], 1⟩ ⟨0, 7, fun _ => 0⟩
      ⟨[{ session_id := 7, player_id := "p", is_online := true }], [], []⟩ "b" "t").2.2.2
    { session_id := 7, player_id := "p", is_online := true } rfl

/-- C9: signing out an unknown session succeeds and writes nothing; with
a session present the call succeeds, forces the session offline through
the primary-key upsert, never touches the cards, stamps
last_signed_out_at on the player when it exists and leaves the players
untouched otherwise; the disconnect hook discards the result of
sign_out_session entirely, so it has no failure channel and returns only
the new state. -/
theorem claim9_sign_out (c : Ctx) (sid : Nat) (db : PlayerDb) :
    (find_session db sid = none → sign_out_session c sid db = (.ok (), db)) ∧
    (∀ s, find_session db sid = some s →
      (sign_out_session c sid db).1 = .ok () ∧
      (sign_out_session c sid db).2.sessions =
        pkUpsert StdbOwnPlayerSessionV1.session_id db.sessions
          ({ s with is_online := false }) ∧
      (sign_out_session c sid db).2.cards = db.cards ∧
      (∀ p, find_player db s.player_id = some p →
        (sign_out_session c sid db).2.players =
          pkUpdate StdbOwnPlayerV1.player_id db.players p.player_id
            ({ p with last_signed_out_at := c.timestamp })) ∧
      (find_player db s.player_id = none →
        (sign_out_session c sid db).2.players = db.players)) ∧
    stdb_identity_disconnected c db = (sign_out_session c c.sender db).2 := by
  refine ⟨?_, ?_, rfl⟩
  · intro h
    simp [sign_out_session, h]
  · intro s h
    rcases hp : find_player db s.player_id with _ | p <;>
      simp only [find_player] at hp <;>
      refine ⟨?_, ?_, ?_, ?_, ?_⟩ <;>
        simp only [sign_out_session, h, find_player, hp] <;>
        simp [find_player, hp]

/-- C9 witness: disconnect of an unknown session on the empty state. -/
theorem claim9_witness :
    sign_out_session ⟨0, 7, fun _ => 0⟩ 7 ⟨[], [], []⟩ = (.ok (), ⟨[], [], []⟩) :=
  (claim9_sign_out ⟨0, 7, fun _ => 0⟩ 7 ⟨[], [], []⟩).1 rfl


theorem cardInvLists_iff {players : List StdbOwnPlayerV1} {cards : List StdbPubPlayerCardV1} :
    cardInvLists players cards = true ↔
      ∀ p ∈ players, cardCovered cards p = true := by
  simp [cardInvLists, List.all_eq_true]

theorem cardCovered_of_proj_eq {cards : List StdbPubPlayerCardV1} {p x : StdbOwnPlayerV1}
    (h : cardCovered cards p = true) (hx : playerCard x = playerCard p) :
    cardCovered cards x = true := by
  simp only [playerCard, StdbPubPlayerCardV1.mk.injEq] at hx
  simp only [cardCovered, List.any_eq_true] at h ⊢
  obtain ⟨cd, hcd, hf⟩ := h
  refine ⟨cd, hcd, ?_⟩
  simp only [Bool.and_eq_true, beq_iff_eq] at hf ⊢
  exact ⟨⟨hf.1.1.trans hx.1.symm, hf.1.2.trans hx.2.1.symm⟩, hf.2.trans hx.2.2.symm⟩

/-- Stamping a private timestamp field rewrites rows through the
player-id update without touching their public projection, so the card
invariant survives with the cards untouched. -/
theorem cardInv_stamp {players : List StdbOwnPlayerV1} {cards : List StdbPubPlayerCardV1}
    (hinv : cardInvLists players cards = true)
    {p : StdbOwnPlayerV1} (hp : p ∈ players) (x : StdbOwnPlayerV1)
    (hx : playerCard x = playerCard p) (k : String) :
    cardInvLists (pkUpdate StdbOwnPlayerV1.player_id players k x) cards = true := by
  rw [cardInvLists_iff] at hinv ⊢
  intro q hq
  rcases mem_pkUpdate_cases _ hq with rfl | ⟨hqmem, _⟩
  · exact cardCovered_of_proj_eq (hinv p hp) hx
  · exact hinv q hqmem

/-- Writing a player row and then its projected card keeps the card
invariant: the new row is covered by its own fresh card, and rows with a
different player_id keep their old cards, which the card upsert leaves
in place. -/
theorem cardInv_write_through {players : List StdbOwnPlayerV1}
    {cards : List StdbPubPlayerCardV1} (hinv : cardInvLists players cards = true)
    (player : StdbOwnPlayerV1) :
    cardInvLists (pkUpsert StdbOwnPlayerV1.player_id players player)
      (pkUpsert StdbPubPlayerCardV1.player_id cards (playerCard player)) = true := by
  rw [cardInvLists_iff] at hinv ⊢
  intro q hq
  rcases mem_pkUpsert_cases _ hq with rfl | ⟨hqmem, hqne⟩
  · simp only [cardCovered, List.any_eq_true]
    exact ⟨playerCard q, mem_pkUpsert_self _ _ _, by simp [playerCard]⟩
  · have hcov := hinv q hqmem
    simp only [cardCovered, List.any_eq_true] at hcov ⊢
    obtain ⟨cd, hcd, hf⟩ := hcov
    have hf2 := hf
    simp only [Bool.and_eq_true, beq_iff_eq] at hf2
    refine ⟨cd, mem_pkUpsert_of_ne _ hcd ?_, hf⟩
    show cd.player_id ≠ (playerCard player).player_id
    simp only [playerCard]
    rw [hf2.1.1]
    exact hqne

/-- upsert_player_card preserves the card invariant on every path:
validation failures and the unique-name conflict leave the state
untouched, and the success path performs the write-through pair. -/
theorem upsert_player_card_inv (c : Ctx) (pid dn av : String) (db : PlayerDb)
    (hinv : cardInv db = true) :
    cardInv (upsert_player_card c pid dn av db).2 = true := by
  simp only [upsert_player_card]
  rcases h1 : validate_str "display_name" dn 8 64 with u | e | m <;> simp only [h1]
  · rcases h2 : validate_str "avatar" av 8 64 with u2 | e2 | m2 <;> simp only [h2]
    · by_cases hc : (db.players.any (fun w =>
          decide (w.player_id ≠ (match find_player db pid with
            | some p => { p with display_name := dn, avatar := av }
            | none =>
                { player_id := pid, display_name := dn, avatar := av,
                  created_at := c.timestamp, signed_in_at := c.timestamp,
                  last_signed_out_at := 0 } : StdbOwnPlayerV1).player_id) &&
          w.display_name == (match find_player db pid with
            | some p => { p with display_name := dn, avatar := av }
            | none =>
                { player_id := pid, display_name := dn, avatar := av,
                  created_at := c.timestamp, signed_in_at := c.timestamp,
                  last_signed_out_at := 0 } : StdbOwnPlayerV1).display_name)) = true
      · rw [if_pos hc]
        exact hinv
      · rw [if_neg hc]
        exact cardInv_write_through hinv _
    · exact hinv
    · exact hinv
  · exact hinv
  · exact hinv

/-- insert_player preserves the card invariant: it either returns the
existing player untouched or delegates to upsert_player_card. -/
theorem insert_player_inv (c : Ctx) (pid : String) (db : PlayerDb) (pos : Nat)
    (hinv : cardInv db = true) : cardInv (insert_player c pid db pos).2.1 = true := by
  simp only [insert_player]
  rcases hp : find_player db pid with _ | p <;> simp only [hp]
  · exact upsert_player_card_inv c _ _ _ _ hinv
  · exact hinv

/-- sign_in_session preserves the card invariant: the session write does
not touch players or cards, the existing-player path stamps a private
timestamp, and the provisioning path goes through insert_player. -/
theorem sign_in_session_inv (c : Ctx) (sid : Nat) (db : PlayerDb) (pos : Nat)
    (hinv : cardInv db = true) : cardInv (sign_in_session c sid db pos).2.1 = true := by
  rcases hs : find_session db sid with _ | s0 <;>
    simp only [sign_in_session, hs, find_player]
  · rcases hp : pkFind StdbOwnPlayerV1.player_id db.players
        (uuid_to_string (inner_new_uuid_v7 ((c.timestamp.tdiv 1000 % (2 ^ 64 : Int)).toNat)
          (fun i => c.randomBytes (pos + i)))) with _ | p <;>
      simp only [new_uuid_v7, hp]
    · rcases ho : (insert_player c (uuid_to_string
          (inner_new_uuid_v7 ((c.timestamp.tdiv 1000 % (2 ^ 64 : Int)).toNat)
            (fun i => c.randomBytes (pos + i)))) { db with sessions := _ } (pos + 10)).1
        with q | e | m
      all_goals simp only [ho]
      all_goals exact insert_player_inv c _ _ _ hinv
    · exact cardInv_stamp hinv (pkFind_mem _ hp).1
        ({ p with signed_in_at := c.timestamp }) rfl p.player_id
  · rcases hp : pkFind StdbOwnPlayerV1.player_id db.players s0.player_id with _ | p <;>
      simp only [hp]
    · rcases ho : (insert_player c s0.player_id { db with sessions := _ } pos).1
        with q | e | m
      all_goals simp only [ho]
      all_goals exact insert_player_inv c _ _ _ hinv
    · exact cardInv_stamp hinv (pkFind_mem _ hp).1
        ({ p with signed_in_at := c.timestamp }) rfl p.player_id

/-- sign_out_session preserves the card invariant. -/
theorem sign_out_session_inv (c : Ctx) (sid : Nat) (db : PlayerDb)
    (hinv : cardInv db = true) : cardInv (sign_out_session c sid db).2 = true := by
  rcases hs : find_session db sid with _ | s <;>
    simp only [sign_out_session, hs, find_player]
  · exact hinv
  · rcases hp : pkFind StdbOwnPlayerV1.player_id db.players s.player_id with _ | p <;>
      simp only [hp]
    · exact hinv
    · exact cardInv_stamp hinv (pkFind_mem _ hp).1
        ({ p with last_signed_out_at := c.timestamp }) rfl p.player_id

/-- update_player_card_v1 preserves the card invariant. -/
theorem update_player_card_v1_inv (c : Ctx) (dn av : String) (db : PlayerDb)
    (hinv : cardInv db = true) : cardInv (update_player_card_v1 c dn av db).2 = true := by
  simp only [update_player_card_v1]
  rcases hr : require_session c db with s | e | m <;> simp only [hr]
  · rcases ho : (upsert_player_card c s.player_id dn av db).1 with q | e2 | m2 <;>
      simp only [ho] <;>
      exact upsert_player_card_inv c _ _ _ _ hinv
  · exact hinv
  · exact hinv

/-- Updating a player in place with an unchanged public projection does
not change the projected card list (primary keys unique). -/
theorem map_playerCard_pkUpdate {players : List StdbOwnPlayerV1}
    (hu : pkUniq StdbOwnPlayerV1.player_id players = true)
    {p : StdbOwnPlayerV1} (hp : p ∈ players) {x : StdbOwnPlayerV1}
    (hx : playerCard x = playerCard p) :
    (pkUpdate StdbOwnPlayerV1.player_id players p.player_id x).map playerCard =
      players.map playerCard := by
  simp only [pkUpdate, List.map_map]
  apply List.map_congr_left
  intro w hw
  simp only [Function.comp]
  by_cases hk : w.player_id = p.player_id
  · rw [if_pos hk, hx, pkUniq_eq_of_mem _ hu hp hw hk]
  · rw [if_neg hk]

/-- C6: every public operation preserves the invariant that each
private player row has a public card with the same player_id,
display_name and avatar; the relationship reducer can only touch the
vip table and in fact leaves it unchanged; sign-out never touches the
cards and leaves every player public projection unchanged; sign-in on
an existing session with an existing player likewise touches neither
the cards nor any public player field. -/
theorem claim6_card_projection (c : Ctx) (db : PlayerDb) (pos : Nat) (sid : Nat)
    (dn av rid tag : String) (vdb : VipDb)
    (hwf : db.wf = true) (hinv : cardInv db = true) :
    cardInv (sign_in_session c sid db pos).2.1 = true ∧
    cardInv (sign_out_session c sid db).2 = true ∧
    cardInv (stdb_identity_disconnected c db) = true ∧
    cardInv (update_player_card_v1 c dn av db).2 = true ∧
    (insert_vip_v1 c rid tag db vdb).2 = vdb ∧
    (sign_out_session c sid db).2.cards = db.cards ∧
    (sign_out_session c sid db).2.players.map playerCard = db.players.map playerCard ∧
    (∀ s p, find_session db sid = some s → find_player db s.player_id = some p →
      (sign_in_session c sid db pos).2.1.cards = db.cards ∧
      (sign_in_session c sid db pos).2.1.players.map playerCard =
        db.players.map playerCard) := by
  refine ⟨sign_in_session_inv c sid db pos hinv, sign_out_session_inv c sid db hinv,
    sign_out_session_inv c c.sender db hinv, update_player_card_v1_inv c dn av db hinv,
    ?_, ?_, ?_, ?_⟩
  · rcases h : find_session db c.sender with _ | s <;>
      simp [insert_vip_v1, require_session, h, insert_vip, validate_uuid]
  · rcases hs : find_session db sid with _ | s
    · simp [sign_out_session, hs]
    · simp only [sign_out_session, hs, find_player]
      rcases hp : pkFind StdbOwnPlayerV1.player_id db.players s.player_id with _ | p <;>
        simp only [hp]
  · rcases hs : find_session db sid with _ | s
    · simp [sign_out_session, hs]
    · simp only [sign_out_session, hs, find_player]
      rcases hp : pkFind StdbOwnPlayerV1.player_id db.players s.player_id with _ | p <;>
        simp only [hp]
      exact map_playerCard_pkUpdate (PlayerDb.wf_players hwf) (pkFind_mem _ hp).1 rfl
  · intro s p hs hp
    simp only [find_player] at hp
    constructor
    · simp only [sign_in_session, hs, find_player, hp]
    · simp only [sign_in_session, hs, find_player, hp]
      exact map_playerCard_pkUpdate (PlayerDb.wf_players hwf) (pkFind_mem _ hp).1 rfl

/-- C6 witness: the four operations applied to the empty state with a
concrete context, every hypothesis discharged. -/
theorem claim6_witness :
    cardInv (sign_in_session ⟨0, 7, fun _ => 0⟩ 7 ⟨[], [], []⟩ 0).2.1 = true ∧
    cardInv (sign_out_session ⟨0, 7, fun _ => 0⟩ 7 ⟨[], [], []⟩).2 = true ∧
    cardInv (stdb_identity_disconnected ⟨0, 7, fun _ => 0⟩ ⟨[], [], []⟩) = true ∧
    cardInv (update_player_card_v1 ⟨0, 7, fun _ => 0⟩ "display nm" "avatar nm"
      ⟨[], [], []⟩).2 = true ∧
    (insert_vip_v1 ⟨0, 7, fun _ => 0⟩ "r" "t" ⟨[], [], []⟩ ⟨[], 1⟩).2 = ⟨[], 1⟩ ∧
    (sign_out_session ⟨0, 7, fun _ => 0⟩ 7 ⟨[], [], []⟩).2.cards =
      (⟨[], [], []⟩ : PlayerDb).cards ∧
    (sign_out_session ⟨0, 7, fun _ => 0⟩ 7 ⟨[], [], []⟩).2.players.map playerCard =
      (⟨[], [], []⟩ : PlayerDb).players.map playerCard ∧
    (∀ s p, find_session ⟨[], [], []⟩ 7 = some s →
      find_player ⟨[], [], []⟩ s.player_id = some p →
      (sign_in_session ⟨0, 7, fun _ => 0⟩ 7 ⟨[], [], []⟩ 0).2.1.cards =
        (⟨[], [], []⟩ : PlayerDb).cards ∧
      (sign_in_session ⟨0, 7, fun _ => 0⟩ 7 ⟨[], [], []⟩ 0).2.1.players.map playerCard =
        (⟨[], [], []⟩ : PlayerDb).players.map playerCard) :=
  claim6_card_projection ⟨0, 7, fun _ => 0⟩ ⟨[], [], []⟩ 0 7 "display nm" "avatar nm"
    "r" "t" ⟨[], 1⟩ rfl rfl


/-- Exhausting the retry budget: when every draw collides, the loop ends
in the v4 fallback, having consumed four bytes per draw. -/
theorem loop_all_collide (c : Ctx) (players : List StdbOwnPlayerV1) (fuel : Nat) :
    ∀ pos,
      (∀ j, j < fuel →
        (pkFind StdbOwnPlayerV1.display_name players
          (build_random_display_name c (pos + 4 * j)).1).isNone = false) →
      build_unique_display_name_loop c players fuel pos = new_uuid_v4 c (pos + 4 * fuel) := by
  induction fuel with
  | zero =>
      intro pos h
      simp [build_unique_display_name_loop]
  | succ f ih =>
      intro pos h
      have h0 := h 0 (by omega)
      simp only [Nat.mul_zero, Nat.add_zero] at h0
      simp only [build_unique_display_name_loop]
      rw [if_neg (by simp [h0])]
      have e2 : (build_random_display_name c pos).2 = pos + 4 := rfl
      rw [e2]
      have ih2 := ih (pos + 4) ?hshift
      case hshift =>
        intro j hj
        have hx := h (j + 1) (by omega)
        have e : pos + 4 * (j + 1) = pos + 4 + 4 * j := by ring
        rw [e] at hx
        exact hx
      rw [ih2]
      congr 1
      ring

/-- First acceptance: when the draws before k collide and the draw at k
does not, the loop returns that draw. -/
theorem loop_first_accept (c : Ctx) (players : List StdbOwnPlayerV1) (k : Nat) :
    ∀ fuel pos, k < fuel →
      (∀ j, j < k →
        (pkFind StdbOwnPlayerV1.display_name players
          (build_random_display_name c (pos + 4 * j)).1).isNone = false) →
      (pkFind StdbOwnPlayerV1.display_name players
          (build_random_display_name c (pos + 4 * k)).1).isNone = true →
      build_unique_display_name_loop c players fuel pos =
        ((build_random_display_name c (pos + 4 * k)).1, pos + 4 * k + 4) := by
  induction k with
  | zero =>
      intro fuel pos hk hcoll hacc
      rcases fuel with _ | f
      · omega
      · simp only [Nat.mul_zero, Nat.add_zero] at hacc ⊢
        simp only [build_unique_display_name_loop]
        rw [if_pos (by simp [hacc])]
        rfl
  | succ k2 ihk =>
      intro fuel pos hk hcoll hacc
      rcases fuel with _ | f
      · omega
      · have h0 := hcoll 0 (by omega)
        simp only [Nat.mul_zero, Nat.add_zero] at h0
        simp only [build_unique_display_name_loop]
        rw [if_neg (by simp [h0])]
        have e2 : (build_random_display_name c pos).2 = pos + 4 := rfl
        rw [e2]
        have hcoll2 : ∀ j, j < k2 →
            (pkFind StdbOwnPlayerV1.display_name players
              (build_random_display_name c (pos + 4 + 4 * j)).1).isNone = false := by
          intro j hj
          have hx := hcoll (j + 1) (by omega)
          have e : pos + 4 * (j + 1) = pos + 4 + 4 * j := by ring
          rw [e] at hx
          exact hx
        have hacc2 : (pkFind StdbOwnPlayerV1.display_name players
            (build_random_display_name c (pos + 4 + 4 * k2)).1).isNone = true := by
          have e : pos + 4 * (k2 + 1) = pos + 4 + 4 * k2 := by ring
          rw [e] at hacc
          exact hacc
        have := ihk f (pos + 4) (by omega) hcoll2 hacc2
        rw [this]
        have e3 : pos + 4 + 4 * k2 = pos + 4 * (k2 + 1) := by ring
        rw [e3]

/-- C8: display-name allocation draws Color-Adjective-Noun candidates
and checks each against existing players: the first non-colliding draw
among the twelve attempts is used (with no collisions, the very first),
and when all twelve collide the name falls back to the canonical text of
a fresh random-flavor (v4) identifier, drawn from the next sixteen bytes
of the source. -/
theorem claim8_display_name (c : Ctx) (players : List StdbOwnPlayerV1) (pos : Nat) :
    (∀ k, k < 12 →
      (∀ j, j < k →
        (pkFind StdbOwnPlayerV1.display_name players
          (build_random_display_name c (pos + 4 * j)).1).isNone = false) →
      (pkFind StdbOwnPlayerV1.display_name players
          (build_random_display_name c (pos + 4 * k)).1).isNone = true →
      build_unique_display_name c players pos =
        ((build_random_display_name c (pos + 4 * k)).1, pos + 4 * k + 4)) ∧
    ((∀ j, j < 12 →
        (pkFind StdbOwnPlayerV1.display_name players
          (build_random_display_name c (pos + 4 * j)).1).isNone = false) →
      build_unique_display_name c players pos = new_uuid_v4 c (pos + 48)) := by
  constructor
  · intro k hk hcoll hacc
    exact loop_first_accept c players k 12 pos hk hcoll hacc
  · intro hcoll
    have h := loop_all_collide c players 12 pos hcoll
    exact h

/-- C8 witness: with the all-zero byte source and no players, the very
first draw Red Swift Oak is accepted after four bytes. -/
theorem claim8_witness :
    build_unique_display_name ⟨0, 0, fun _ => 0⟩ [] 0 = ("Red Swift Oak", 4) :=
  (claim8_display_name ⟨0, 0, fun _ => 0⟩ [] 0).1 0 (by omega)
    (fun j hj => absurd hj (Nat.not_lt_zero j)) rfl


theorem wf_mk {S : List StdbOwnPlayerSessionV1} {P : List StdbOwnPlayerV1}
    {C : List StdbPubPlayerCardV1}
    (hS : pkUniq StdbOwnPlayerSessionV1.session_id S = true)
    (hP : pkUniq StdbOwnPlayerV1.player_id P = true) :
    PlayerDb.wf ⟨S, P, C⟩ = true := by
  simp [PlayerDb.wf, hS, hP]

/-- Success characterization of upsert_player_card: the returned row
carries the requested player_id, the sessions are untouched, the player
table is the primary-key upsert of the returned row (so the row is found
back and primary-key uniqueness survives). -/
theorem upsert_player_card_ok {c : Ctx} {pid dn av : String} {db : PlayerDb}
    {q : StdbOwnPlayerV1} {db2 : PlayerDb}
    (h : upsert_player_card c pid dn av db = (.ok q, db2)) :
    q.player_id = pid ∧ db2.sessions = db.sessions ∧
    db2.players = pkUpsert StdbOwnPlayerV1.player_id db.players q ∧
    find_player db2 pid = some q ∧
    (pkUniq StdbOwnPlayerV1.player_id db.players = true →
      pkUniq StdbOwnPlayerV1.player_id db2.players = true) := by
  simp only [upsert_player_card] at h
  split at h
  case h_1 => simp at h
  case h_2 => simp at h
  case h_3 =>
  split at h
  case h_1 => simp at h
  case h_2 => simp at h
  case h_3 =>
  split at h
  case isTrue => simp at h
  case isFalse hc =>
    simp only [Prod.mk.injEq, Outcome.ok.injEq] at h
    obtain ⟨hq, hdb2⟩ := h
    subst hq
    subst hdb2
    refine ⟨?_, rfl, rfl, ?_, ?_⟩
    · split
      case h_1 p hp => exact (pkFind_mem _ hp).2
      case h_2 => rfl
    · show pkFind StdbOwnPlayerV1.player_id
        (pkUpsert StdbOwnPlayerV1.player_id db.players _) pid = _
      have hkey : StdbOwnPlayerV1.player_id (match find_player db pid with
          | some p => { p with display_name := dn, avatar := av }
          | none =>
              { player_id := pid, display_name := dn, avatar := av,
                created_at := c.timestamp, signed_in_at := c.timestamp,
                last_signed_out_at := 0 }) = pid := by
        split
        case h_1 p hp => exact (pkFind_mem _ hp).2
        case h_2 => rfl
      have h2 := pkFind_pkUpsert StdbOwnPlayerV1.player_id db.players
        (match find_player db pid with
          | some p => { p with display_name := dn, avatar := av }
          | none =>
              { player_id := pid, display_name := dn, avatar := av,
                created_at := c.timestamp, signed_in_at := c.timestamp,
                last_signed_out_at := 0 })
      rw [hkey] at h2
      exact h2
    · intro hu
      exact pkUniq_pkUpsert _ hu _

/-- Success characterization of insert_player. -/
theorem insert_player_ok {c : Ctx} {pid : String} {db : PlayerDb} {q : StdbOwnPlayerV1}
    {db2 : PlayerDb} {pos pos2 : Nat}
    (h : insert_player c pid db pos = (.ok q, db2, pos2)) :
    db2.sessions = db.sessions ∧ find_player db2 pid = some q ∧
    (pkUniq StdbOwnPlayerV1.player_id db.players = true →
      pkUniq StdbOwnPlayerV1.player_id db2.players = true) := by
  simp only [insert_player] at h
  split at h
  case h_1 p hp =>
    simp only [Prod.mk.injEq, Outcome.ok.injEq] at h
    obtain ⟨hq, hdb2, _⟩ := h
    subst hq
    subst hdb2
    exact ⟨rfl, hp, fun hu => hu⟩
  case h_2 hp =>
    rcases hres : upsert_player_card c pid
        (build_unique_display_name c db.players pos).1 "default_avatar" db with ⟨o, db2x⟩
    rw [hres] at h
    rcases o with u | e | m <;> simp only [Prod.mk.injEq] at h
    · obtain ⟨ho, hdb2, _⟩ := h
      rw [ho] at hres
      obtain ⟨_, hsess, _, hfindq, huniq⟩ := upsert_player_card_ok hres
      subst hdb2
      exact ⟨hsess, hfindq, huniq⟩
    · simp at h
    · simp at h


/-- Component form of the insert_player success characterization. -/
theorem insert_player_ok2 (c : Ctx) (pid : String) (db : PlayerDb) (pos : Nat)
    (q : StdbOwnPlayerV1) (h : (insert_player c pid db pos).1 = Outcome.ok q) :
    (insert_player c pid db pos).2.1.sessions = db.sessions ∧
    (insert_player c pid db pos).2.1.cards.length ≥ 0 ∧
    find_player (insert_player c pid db pos).2.1 pid = some q ∧
    (pkUniq StdbOwnPlayerV1.player_id db.players = true →
      pkUniq StdbOwnPlayerV1.player_id (insert_player c pid db pos).2.1.players = true) := by
  rcases hres : insert_player c pid db pos with ⟨o, db2, pos2⟩
  rw [hres] at h
  simp only at h
  subst h
  obtain ⟨hsess, hfindq, huniq⟩ := insert_player_ok hres
  exact ⟨hsess, by omega, hfindq, huniq⟩

/-- Success characterization of sign_in_session: the returned session is
online with the requested id, the session table is the primary-key
upsert of that session, the session is found back, its player exists
afterwards, and well-formedness survives. -/
theorem sign_in_session_ok {c : Ctx} {sid : Nat} {db : PlayerDb} {pos : Nat}
    {s1 : StdbOwnPlayerSessionV1} {db1 : PlayerDb} {p1 : Nat}
    (hwf : db.wf = true)
    (h : sign_in_session c sid db pos = (.ok s1, db1, p1)) :
    s1.is_online = true ∧ s1.session_id = sid ∧
    db1.sessions = pkUpsert StdbOwnPlayerSessionV1.session_id db.sessions s1 ∧
    find_session db1 sid = some s1 ∧
    (∃ p2, find_player db1 s1.player_id = some p2) ∧
    db1.wf = true := by
  have hfind_back : ∀ (S : List StdbOwnPlayerSessionV1) (s : StdbOwnPlayerSessionV1),
      s.session_id = sid →
      pkFind StdbOwnPlayerSessionV1.session_id
        (pkUpsert StdbOwnPlayerSessionV1.session_id S s) sid = some s := by
    intro S s hks
    have h2 := pkFind_pkUpsert StdbOwnPlayerSessionV1.session_id S s
    rw [show StdbOwnPlayerSessionV1.session_id s = sid from hks] at h2
    exact h2
  simp only [sign_in_session, find_player] at h
  rcases hs : find_session db sid with _ | s0 <;> simp only [hs] at h
  · -- fresh session
    rcases hp : pkFind StdbOwnPlayerV1.player_id db.players (new_uuid_v7 c pos).1
      with _ | p <;> simp only [hp] at h
    · -- provision a new player
      split at h
      case h_2 => simp at h
      case h_3 => simp at h
      case h_1 a ha =>
        simp only [Prod.mk.injEq, Outcome.ok.injEq] at h
        obtain ⟨hq, hdb2, hpos⟩ := h
        subst hq
        subst hdb2
        obtain ⟨hsess, -, hfindq, huniq⟩ := insert_player_ok2 _ _ _ _ _ ha
        refine ⟨rfl, rfl, ?_, ?_, ?_, ?_⟩
        · rw [hsess]
        · rw [show find_session _ sid =
              pkFind StdbOwnPlayerSessionV1.session_id
                (insert_player c (new_uuid_v7 c pos).1 _ (new_uuid_v7 c pos).2).2.1.sessions
                sid from rfl, hsess]
          exact hfind_back _ _ rfl
        · exact ⟨_, hfindq⟩
        · simp only [PlayerDb.wf, Bool.and_eq_true]
          constructor
          · rw [hsess]
            exact pkUniq_pkUpsert _ (PlayerDb.wf_sessions hwf) _
          · exact huniq (by exact @PlayerDb.wf_players db hwf)
    · -- player with the fresh uuid already exists: stamp it
      simp only [Prod.mk.injEq, Outcome.ok.injEq] at h
      obtain ⟨hq, hdb2, hpos⟩ := h
      subst hq
      subst hdb2
      refine ⟨rfl, rfl, rfl, hfind_back _ _ rfl, ?_, ?_⟩
      · refine ⟨{ p with signed_in_at := c.timestamp }, ?_⟩
        show pkFind StdbOwnPlayerV1.player_id
          (pkUpdate StdbOwnPlayerV1.player_id db.players p.player_id _) _ = _
        exact find?_pkUpdate_hit _ _ _ hp (by simp [(pkFind_mem _ hp).2])
      · simp only [PlayerDb.wf, Bool.and_eq_true]
        exact ⟨pkUniq_pkUpsert _ (PlayerDb.wf_sessions hwf) _,
          pkUniq_pkUpdate _ (PlayerDb.wf_players hwf) rfl⟩
  · -- existing session
    have hs0 : s0.session_id = sid := (pkFind_mem _ hs).2
    rcases hp : pkFind StdbOwnPlayerV1.player_id db.players s0.player_id
      with _ | p <;> simp only [hp] at h
    · split at h
      case h_2 => simp at h
      case h_3 => simp at h
      case h_1 a ha =>
        simp only [Prod.mk.injEq, Outcome.ok.injEq] at h
        obtain ⟨hq, hdb2, hpos⟩ := h
        subst hq
        subst hdb2
        obtain ⟨hsess, -, hfindq, huniq⟩ := insert_player_ok2 _ _ _ _ _ ha
        refine ⟨rfl, hs0, ?_, ?_, ?_, ?_⟩
        · rw [hsess]
        · rw [show find_session _ sid =
              pkFind StdbOwnPlayerSessionV1.session_id
                (insert_player c s0.player_id _ pos).2.1.sessions sid from rfl, hsess]
          exact hfind_back _ _ hs0
        · exact ⟨_, hfindq⟩
        · simp only [PlayerDb.wf, Bool.and_eq_true]
          constructor
          · rw [hsess]
            exact pkUniq_pkUpsert _ (PlayerDb.wf_sessions hwf) _
          · exact huniq (by exact @PlayerDb.wf_players db hwf)
    · simp only [Prod.mk.injEq, Outcome.ok.injEq] at h
      obtain ⟨hq, hdb2, hpos⟩ := h
      subst hq
      subst hdb2
      refine ⟨rfl, hs0, rfl, hfind_back _ _ hs0, ?_, ?_⟩
      · refine ⟨{ p with signed_in_at := c.timestamp }, ?_⟩
        show pkFind StdbOwnPlayerV1.player_id
          (pkUpdate StdbOwnPlayerV1.player_id db.players p.player_id _) _ = _
        exact find?_pkUpdate_hit _ _ _ hp (by simp [(pkFind_mem _ hp).2])
      · simp only [PlayerDb.wf, Bool.and_eq_true]
        exact ⟨pkUniq_pkUpsert _ (PlayerDb.wf_sessions hwf) _,
          pkUniq_pkUpdate _ (PlayerDb.wf_players hwf) rfl⟩


/-- C5: when a connect call succeeds, the state holds exactly one
session row for that identity and it is online; a second connect without
an intervening disconnect returns the same session, finds the existing
session player (creating no new player row: same player count, the
single change is the signed_in_at stamp of that player) and leaves the
session table — still with exactly one row for the identity — as it
was. -/
theorem claim5_sign_in_idempotent (c1 c2 : Ctx) (sid : Nat) (db : PlayerDb)
    (pos p1 : Nat) (s1 : StdbOwnPlayerSessionV1) (db1 : PlayerDb)
    (hwf : db.wf = true)
    (h1 : sign_in_session c1 sid db pos = (.ok s1, db1, p1)) :
    s1.is_online = true ∧
    find_session db1 sid = some s1 ∧
    db1.sessions.countP (fun w => decide (w.session_id = sid)) = 1 ∧
    ∃ p2, find_player db1 s1.player_id = some p2 ∧
      sign_in_session c2 sid db1 p1 =
        (.ok s1,
         ⟨db1.sessions,
          pkUpdate StdbOwnPlayerV1.player_id db1.players p2.player_id
            ({ p2 with signed_in_at := c2.timestamp }),
          db1.cards⟩, p1) ∧
      (sign_in_session c2 sid db1 p1).2.1.sessions = db1.sessions ∧
      (sign_in_session c2 sid db1 p1).2.1.players.length = db1.players.length ∧
      (sign_in_session c2 sid db1 p1).2.1.sessions.countP
        (fun w => decide (w.session_id = sid)) = 1 := by
  obtain ⟨hon, hsid, hsessEq, hfind, ⟨p2, hp2⟩, hwf1⟩ := sign_in_session_ok hwf h1
  have hcnt : db1.sessions.countP (fun w => decide (w.session_id = sid)) = 1 := by
    have hc := countP_eq_one_of_uniq_mem StdbOwnPlayerSessionV1.session_id
      (PlayerDb.wf_sessions hwf1) (pkFind_mem _ hfind).1
    simpa [hsid] using hc
  have hmain : sign_in_session c2 sid db1 p1 =
      (.ok s1,
       ⟨db1.sessions,
        pkUpdate StdbOwnPlayerV1.player_id db1.players p2.player_id
          ({ p2 with signed_in_at := c2.timestamp }),
        db1.cards⟩, p1) := by
    have hupself : pkUpsert StdbOwnPlayerSessionV1.session_id db1.sessions s1 =
        db1.sessions :=
      pkUpsert_eq_self_of_mem _ (PlayerDb.wf_sessions hwf1) (pkFind_mem _ hfind).1
    have heta : ({ s1 with is_online := true }) = s1 := session_eta s1 hon
    simp only [find_player] at hp2
    simp only [sign_in_session, hfind, heta, find_player, hp2]
    rw [hupself]
  refine ⟨hon, hfind, hcnt, p2, by simpa [find_player] using hp2, hmain, ?_, ?_, ?_⟩
  · rw [hmain]
  · rw [hmain]
    exact pkUpdate_length _ _ _ _
  · rw [hmain]
    exact hcnt

/-- C5 witness: connect twice on the empty state with the all-zero byte
source; the first call provisions the player and the second only stamps
the sign-in time. -/
theorem claim5_witness :
    ({ session_id := 7, player_id := "00000000-0000-7000-8000-000000000000",
       is_online := true } : StdbOwnPlayerSessionV1).is_online = true ∧
    find_session
      ⟨[{ session_id := 7, player_id := "00000000-0000-7000-8000-000000000000",
          is_online := true }],
       [{ player_id := "00000000-0000-7000-8000-000000000000",
          display_name := "Red Swift Oak", avatar := "default_avatar",
          created_at := 0, signed_in_at := 0, last_signed_out_at := 0 }],
       [{ player_id := "00000000-0000-7000-8000-000000000000",
          display_name := "Red Swift Oak", avatar := "default_avatar" }]⟩ 7 =
      some { session_id := 7, player_id := "00000000-0000-7000-8000-000000000000",
             is_online := true } ∧
    ([{ session_id := 7, player_id := "00000000-0000-7000-8000-000000000000",
        is_online := true }] : List StdbOwnPlayerSessionV1).countP
      (fun w => decide (w.session_id = 7)) = 1 ∧
    ∃ p2, find_player
        ⟨[{ session_id := 7, player_id := "00000000-0000-7000-8000-000000000000",
            is_online := true }],
         [{ player_id := "00000000-0000-7000-8000-000000000000",
            display_name := "Red Swift Oak", avatar := "default_avatar",
            created_at := 0, signed_in_at := 0, last_signed_out_at := 0 }],
         [{ player_id := "00000000-0000-7000-8000-000000000000",
            display_name := "Red Swift Oak", avatar := "default_avatar" }]⟩
        "00000000-0000-7000-8000-000000000000" = some p2 ∧
      sign_in_session ⟨5, 7, fun _ => 1⟩ 7
          ⟨[{ session_id := 7, player_id := "00000000-0000-7000-8000-000000000000",
              is_online := true }],
           [{ player_id := "00000000-0000-7000-8000-000000000000",
              display_name := "Red Swift Oak", avatar := "default_avatar",
              created_at := 0, signed_in_at := 0, last_signed_out_at := 0 }],
           [{ player_id := "00000000-0000-7000-8000-000000000000",
              display_name := "Red Swift Oak", avatar := "default_avatar" }]⟩ 14 =
        (.ok { session_id := 7, player_id := "00000000-0000-7000-8000-000000000000",
               is_online := true },
         ⟨[{ session_id := 7, player_id := "00000000-0000-7000-8000-000000000000",
             is_online := true }],
          pkUpdate StdbOwnPlayerV1.player_id
            [{ player_id := "00000000-0000-7000-8000-000000000000",
               display_name := "Red Swift Oak", avatar := "default_avatar",
               created_at := 0, signed_in_at := 0, last_signed_out_at := 0 }]
            p2.player_id ({ p2 with signed_in_at := 5 }),
          [{ player_id := "00000000-0000-7000-8000-000000000000",
             display_name := "Red Swift Oak", avatar := "default_avatar" }]⟩, 14) ∧
      (sign_in_session ⟨5, 7, fun _ => 1⟩ 7
          ⟨[{ session_id := 7, player_id := "00000000-0000-7000-8000-000000000000",
              is_online := true }],
           [{ player_id := "00000000-0000-7000-8000-000000000000",
              display_name := "Red Swift Oak", avatar := "default_avatar",
              created_at := 0, signed_in_at := 0, last_signed_out_at := 0 }],
           [{ player_id := "00000000-0000-7000-8000-000000000000",
              display_name := "Red Swift Oak", avatar := "default_avatar" }]⟩ 14).2.1.sessions =
        [{ session_id := 7, player_id := "00000000-0000-7000-8000-000000000000",
           is_online := true }] ∧
      (sign_in_session ⟨5, 7, fun _ => 1⟩ 7
          ⟨[{ session_id := 7, player_id := "00000000-0000-7000-8000-000000000000",
              is_online := true }],
           [{ player_id := "00000000-0000-7000-8000-000000000000",
              display_name := "Red Swift Oak", avatar := "default_avatar",
              created_at := 0, signed_in_at := 0, last_signed_out_at := 0 }],
           [{ player_id := "00000000-0000-7000-8000-000000000000",
              display_name := "Red Swift Oak", avatar := "default_avatar" }]⟩ 14).2.1.players.length =
        ([{ player_id := "00000000-0000-7000-8000-000000000000",
            display_name := "Red Swift Oak", avatar := "default_avatar",
            created_at := 0, signed_in_at := 0, last_signed_out_at := 0 }] :
          List StdbOwnPlayerV1).length ∧
      (sign_in_session ⟨5, 7, fun _ => 1⟩ 7
          ⟨[{ session_id := 7, player_id := "00000000-0000-7000-8000-000000000000",
              is_online := true }],
           [{ player_id := "00000000-0000-7000-8000-000000000000",
              display_name := "Red Swift Oak", avatar := "default_avatar",
              created_at := 0, signed_in_at := 0, last_signed_out_at := 0 }],
           [{ player_id := "00000000-0000-7000-8000-000000000000",
              display_name := "Red Swift Oak", avatar := "default_avatar" }]⟩ 14).2.1.sessions.countP
        (fun w => decide (w.session_id = 7)) = 1 :=
  claim5_sign_in_idempotent ⟨0, 7, fun _ => 0⟩ ⟨5, 7, fun _ => 1⟩ 7 ⟨[], [], []⟩ 0 14
    { session_id := 7, player_id := "00000000-0000-7000-8000-000000000000",
      is_online := true }
    ⟨[{ session_id := 7, player_id := "00000000-0000-7000-8000-000000000000",
        is_online := true }],
     [{ player_id := "00000000-0000-7000-8000-000000000000",
        display_name := "Red Swift Oak", avatar := "default_avatar",
        created_at := 0, signed_in_at := 0, last_signed_out_at := 0 }],
     [{ player_id := "00000000-0000-7000-8000-000000000000",
        display_name := "Red Swift Oak", avatar := "default_avatar" }]⟩
    rfl rfl


end StdbLibs
